import Mathlib

/-
Verification of the synstyl deterministic data synthesis and tokenization
core (src/Main.py and src/tokenizer.py) against its specification.

The Python code is shallowly embedded in Lean:
- pandas DataFrames become `Table` (ordered column list plus index-labelled
  rows of column/value pairs), cells become the tagged `Cell` type;
- Python floats are modelled as exact rationals, with IEEE NaN kept as an
  explicit tag and its comparison semantics modelled where the code relies
  on them;
- `hashlib.sha256` is modelled by an executable SHA-256 over ASCII bytes
  (all keys built by the code are ASCII);
- `random.Random(seed)` is modelled by an executable MT19937 seeded the way
  CPython seeds it (init_by_array on the 32-bit seed); each call site of
  the code creates a fresh generator, so draws are indexed from 0;
- fallible Python operations return `Except String` with the Python
  exception name as the payload.
Both the SHA-256 and the MT19937 model are cross-checked below against
reference outputs of the real libraries.
-/

set_option maxRecDepth 16000

def pow32 : Nat := 4294967296

/-- Strictness helper: forces a Nat to a literal before continuing, so that
kernel evaluation of the iterated hash and generator states stays linear. -/
def fNat (n : Nat) (k : Nat → α) : α :=
  match n with
  | 0 => k 0
  | m+1 => k (m+1)

theorem fNat_eq (n : Nat) (k : Nat → α) : fNat n k = k n := by
  cases n <;> rfl

/-! ## SHA-256 (model of hashlib.sha256) -/

def rotr32 (x k : Nat) : Nat := ((x >>> k) ||| (x <<< (32 - k))) % pow32

def bigS0 (x : Nat) : Nat := (rotr32 x 2) ^^^ (rotr32 x 13) ^^^ (rotr32 x 22)
def bigS1 (x : Nat) : Nat := (rotr32 x 6) ^^^ (rotr32 x 11) ^^^ (rotr32 x 25)
def smallS0 (x : Nat) : Nat := (rotr32 x 7) ^^^ (rotr32 x 18) ^^^ (x >>> 3)
def smallS1 (x : Nat) : Nat := (rotr32 x 17) ^^^ (rotr32 x 19) ^^^ (x >>> 10)
def shaCh (x y z : Nat) : Nat := (x &&& y) ^^^ ((x ^^^ 4294967295) &&& z)
def shaMaj (x y z : Nat) : Nat := (x &&& y) ^^^ (x &&& z) ^^^ (y &&& z)

def shaK : List Nat :=
  [1116352408, 1899447441, 3049323471, 3921009573, 961987163, 1508970993,
   2453635748, 2870763221, 3624381080, 310598401, 607225278, 1426881987,
   1925078388, 2162078206, 2614888103, 3248222580, 3835390401, 4022224774,
   264347078, 604807628, 770255983, 1249150122, 1555081692, 1996064986,
   2554220882, 2821834349, 2952996808, 3210313671, 3336571891, 3584528711,
   113926993, 338241895, 666307205, 773529912, 1294757372, 1396182291,
   1695183700, 1986661051, 2177026350, 2456956037, 2730485921, 2820302411,
   3259730800, 3345764771, 3516065817, 3600352804, 4094571909, 275423344,
   430227734, 506948616, 659060556, 883997877, 958139571, 1322822218,
   1537002063, 1747873779, 1955562222, 2024104815, 2227730452, 2361852424,
   2428436474, 2756734187, 3204031479, 3329325298]

def shaH0 : List Nat :=
  [1779033703, 3144134277, 1013904242, 2773480762,
   1359893119, 2600822924, 528734635, 1541459225]

def shaExtend : Nat → List Nat → List Nat
  | 0, w => w
  | n+1, w =>
    let i := w.length
    fNat ((smallS1 (w.getD (i-2) 0) + w.getD (i-7) 0 + smallS0 (w.getD (i-15) 0) + w.getD (i-16) 0) % pow32)
      fun v => shaExtend n (w ++ [v])

structure SHAState where
  a : Nat
  b : Nat
  c : Nat
  d : Nat
  e : Nat
  f : Nat
  g : Nat
  h : Nat

def shaRound (st : SHAState) (kw : Nat × Nat) : SHAState :=
  fNat ((st.h + bigS1 st.e + shaCh st.e st.f st.g + kw.1 + kw.2) % pow32) fun t1 =>
  fNat ((bigS0 st.a + shaMaj st.a st.b st.c) % pow32) fun t2 =>
  fNat ((t1 + t2) % pow32) fun na =>
  fNat ((st.d + t1) % pow32) fun ne =>
  ⟨na, st.a, st.b, st.c, ne, st.e, st.f, st.g⟩

def shaFold : List (Nat × Nat) → SHAState → SHAState
  | [], st => st
  | kw :: t, st =>
    match shaRound st kw with
    | ⟨a, b, c, d, e, f, g, h⟩ => shaFold t ⟨a, b, c, d, e, f, g, h⟩

def shaCompress (hs : List Nat) (block : List Nat) : List Nat :=
  let w := shaExtend 48 block
  let st0 : SHAState := ⟨hs.getD 0 0, hs.getD 1 0, hs.getD 2 0, hs.getD 3 0,
                         hs.getD 4 0, hs.getD 5 0, hs.getD 6 0, hs.getD 7 0⟩
  let st := shaFold (shaK.zip w) st0
  [(st0.a + st.a) % pow32, (st0.b + st.b) % pow32, (st0.c + st.c) % pow32, (st0.d + st.d) % pow32,
   (st0.e + st.e) % pow32, (st0.f + st.f) % pow32, (st0.g + st.g) % pow32, (st0.h + st.h) % pow32]

def bytesToWords : Nat → List Nat → List Nat
  | 0, _ => []
  | _, [] => []
  | fuel+1, bs =>
    fNat ((bs.getD 0 0) * 16777216 + (bs.getD 1 0) * 65536 + (bs.getD 2 0) * 256 + bs.getD 3 0)
      fun w => w :: bytesToWords fuel (bs.drop 4)

def toBlocks : Nat → List Nat → List (List Nat)
  | 0, _ => []
  | fuel+1, bs =>
    if bs.isEmpty then [] else bytesToWords 16 (bs.take 64) :: toBlocks fuel (bs.drop 64)

def shaPad (bs : List Nat) : List Nat :=
  let len := bs.length
  let z := (55 + 64 - len % 64) % 64
  let bitLen := 8 * len
  bs ++ [128] ++ List.replicate z 0 ++
    [bitLen >>> 56 % 256, bitLen >>> 48 % 256, bitLen >>> 40 % 256, bitLen >>> 32 % 256,
     bitLen >>> 24 % 256, bitLen >>> 16 % 256, bitLen >>> 8 % 256, bitLen % 256]

/-- Byte sequence of a string; the embedding is used on ASCII data only,
where UTF-8 bytes coincide with the code points. -/
def strBytes (s : String) : List Nat := s.data.map Char.toNat

def sha256Words (s : String) : List Nat :=
  let padded := shaPad (strBytes s)
  (toBlocks (padded.length) padded).foldl shaCompress shaH0

/-- Model of int(hashlib.sha256(x).hexdigest(), 16): the digest as a 256-bit
big-endian integer. -/
def sha256Int (s : String) : Nat := (sha256Words s).foldl (fun acc w => acc * pow32 + w) 0

def hexChar (d : Nat) : Char :=
  match d with
  | 0 => '0' | 1 => '1' | 2 => '2' | 3 => '3' | 4 => '4'
  | 5 => '5' | 6 => '6' | 7 => '7' | 8 => '8' | 9 => '9'
  | 10 => 'a' | 11 => 'b' | 12 => 'c' | 13 => 'd' | 14 => 'e'
  | _ => 'f'

def wordHex (w : Nat) : List Char :=
  [hexChar (w >>> 28 % 16), hexChar (w >>> 24 % 16), hexChar (w >>> 20 % 16), hexChar (w >>> 16 % 16),
   hexChar (w >>> 12 % 16), hexChar (w >>> 8 % 16), hexChar (w >>> 4 % 16), hexChar (w % 16)]

/-- Model of hashlib.sha256(x).hexdigest(). -/
def sha256Hex (s : String) : String := ⟨(sha256Words s).flatMap wordHex⟩

/-! ## MT19937 (model of random.Random seeded with a 32-bit integer) -/

def igStep (prev i : Nat) : Nat := (1812433253 * (prev ^^^ (prev >>> 30)) + i) % pow32

def igFrom : Nat → Nat → Nat → List Nat
  | 0, _, _ => []
  | n+1, prev, i => fNat (igStep prev i) fun v => v :: igFrom n v (i+1)

def initGenrand (s : Nat) : List Nat := s % pow32 :: igFrom 623 (s % pow32) 1

def ibaStep1 (key prev cur : Nat) : Nat :=
  ((cur ^^^ (((prev ^^^ (prev >>> 30)) * 1664525) % pow32)) + key) % pow32

def ibaScan1 (key : Nat) : Nat → List Nat → List Nat
  | _, [] => []
  | prev, c :: rest => fNat (ibaStep1 key prev c) fun v => v :: ibaScan1 key v rest

def ibaStep2 (i prev cur : Nat) : Nat :=
  ((cur ^^^ (((prev ^^^ (prev >>> 30)) * 1566083941) % pow32)) + pow32 - i) % pow32

def ibaScan2 : Nat → Nat → List Nat → List Nat
  | _, _, [] => []
  | i, prev, c :: rest => fNat (ibaStep2 i prev c) fun v => v :: ibaScan2 (i+1) v rest

/-- CPython seeding of random.Random with a 32-bit integer seed:
init_genrand(19650218) followed by init_by_array([seed]). The two loops of
init_by_array are laid out explicitly: a scan over positions 1..623, the
wrap-around writes to positions 0 and 1, the second scan over positions
2..623, its wrap-around, and the final mt[0] = 0x80000000. -/
def mtSeed (seed : Nat) : List Nat :=
  fNat (seed % pow32) fun key =>
  match initGenrand 19650218 with
  | [] => []
  | h :: t =>
    let l1 := h :: ibaScan1 key h t
    fNat (l1.getD 623 0) fun a =>
    let l2 := l1.set 0 a
    fNat (ibaStep1 key a (l2.getD 1 0)) fun v1 =>
    let l3 := l2.set 1 v1
    let l4 := (l3.take 2) ++ ibaScan2 2 v1 (l3.drop 2)
    fNat (l4.getD 623 0) fun b =>
    let l5 := l4.set 0 b
    fNat (ibaStep2 1 b (l5.getD 1 0)) fun v2 =>
    let l6 := l5.set 1 v2
    l6.set 0 2147483648

/-- Value of the generate-phase twist at position k, for k at most 226 (those
positions only read pre-twist state; every draw made by the embedded code
stays far below that bound). -/
def twistAt (mt : List Nat) (k : Nat) : Nat :=
  fNat (((mt.getD k 0) &&& 2147483648) ||| ((mt.getD (k+1) 0) &&& 2147483647)) fun y =>
  (mt.getD (k+397) 0) ^^^ (y >>> 1) ^^^ (if y % 2 = 1 then 2567483615 else 0)

def temper (y0 : Nat) : Nat :=
  fNat (y0 ^^^ (y0 >>> 11)) fun y1 =>
  fNat (y1 ^^^ ((y1 <<< 7) &&& 2636928640)) fun y2 =>
  fNat (y2 ^^^ ((y2 <<< 15) &&& 4022730752)) fun y3 =>
  (y3 ^^^ (y3 >>> 18)) % pow32

/-- The k-th 32-bit output of a freshly seeded generator. -/
def mtOut (seed k : Nat) : Nat := temper (twistAt (mtSeed seed) k)

/-- Model of Random.getrandbits(k) consuming the draw at index idx
(getrandbits for k at most 32 takes the top k bits of one output). -/
def grb (seed k idx : Nat) : Nat := (mtOut seed idx) >>> (32 - k)

def bitLenAux : Nat → Nat → Nat
  | 0, _ => 0
  | fuel+1, n => if n = 0 then 0 else bitLenAux fuel (n / 2) + 1

/-- Model of int.bit_length for the small bounds used by randrange. -/
def bitLen (n : Nat) : Nat := bitLenAux 64 n

/-- Model of Random._randbelow(n): draw bitLen n bits, retry while the draw
is at least n. Returns the value and the next draw index. The fuel bounds
the retries; 53 retries keep even four chained randint calls within the
draw indices that twistAt models, and no evaluated draw comes close. -/
def randbelowAux (seed n k : Nat) : Nat → Nat → Nat × Nat
  | 0, idx => (0, idx)
  | fuel+1, idx =>
    fNat (grb seed k idx) fun r =>
    if r < n then (r, idx + 1) else randbelowAux seed n k fuel (idx + 1)

def pyRandbelow (seed n idx : Nat) : Nat × Nat :=
  if n = 0 then (0, idx) else randbelowAux seed n (bitLen n) 53 idx

/-- Model of Random.randint(a, b) = a + _randbelow(b - a + 1). -/
def pyRandint (seed a b idx : Nat) : Nat × Nat :=
  let p := pyRandbelow seed (b + 1 - a) idx
  (a + p.1, p.2)

/-- Model of Random.random() on a fresh generator: (a * 2^26 + b) / 2^53
with a the top 27 bits of output 0 and b the top 26 bits of output 1. -/
def pyRandom53 (seed : Nat) : ℚ :=
  (((mtOut seed 0 >>> 5) * 67108864 + (mtOut seed 1 >>> 6) : Nat) : ℚ) / 9007199254740992

/-- Model of Random.uniform(low, high) on a fresh generator. -/
def pyUniform (seed : Nat) (low high : ℚ) : ℚ := low + (high - low) * pyRandom53 seed

/-- Model of Random.choice(seq) = seq[_randbelow(len(seq))]. -/
def pyChoice (seed : Nat) (l : List String) : String := l.getD (pyRandbelow seed l.length 0).1 ""

/-! ### Cross-checks of the primitive models against reference outputs -/

theorem sha256_check_abc :
    sha256Hex "abc" = "ba7816bf8f01cfea414140de5dae2223b00361a396177a9cb410ff61f20015ad" := by
  decide

theorem mt19937_check_seed5 :
    mtOut 5 0 = 2675342405 ∧ mtOut 5 1 = 1097127993 ∧ mtOut 5 2 = 3185950873 :=
  ⟨by decide, by decide, by decide⟩

/-! ## Python value and string helpers -/

def decDigitsAux : Nat → Nat → List Nat
  | 0, _ => []
  | fuel+1, n => if n = 0 then [] else n % 10 :: decDigitsAux fuel (n / 10)

def digitChar (d : Nat) : Char :=
  match d with
  | 0 => '0' | 1 => '1' | 2 => '2' | 3 => '3' | 4 => '4'
  | 5 => '5' | 6 => '6' | 7 => '7' | 8 => '8' | _ => '9'

/-- Model of str(n) for a nonnegative Python int. -/
def pyIntStr (n : Nat) : String :=
  if n = 0 then "0" else ⟨((decDigitsAux n n).reverse).map digitChar⟩

def hexDigitsAux : Nat → Nat → List Nat
  | 0, _ => []
  | fuel+1, n => if n = 0 then [] else n % 16 :: hexDigitsAux fuel (n / 16)

/-- Model of hex(n) for a nonnegative Python int. -/
def pyHex (n : Nat) : String :=
  "0x" ++ (if n = 0 then "0" else ⟨((hexDigitsAux n n).reverse).map hexChar⟩)

/-- Model of str.zfill(w): pad with zeros on the left to width w. -/
def pyZfill (s : String) (w : Nat) : String := ⟨List.replicate (w - s.length) '0' ++ s.data⟩

/-- Model of the Python slice s[:k] (k may be negative, counting from the
end, as in s[:15-len(p)]). -/
def pySliceTo (s : String) (k : Int) : String :=
  if 0 ≤ k then ⟨s.data.take k.toNat⟩ else ⟨s.data.take (s.length - (-k).toNat)⟩

/-- Model of the Python slice s[-k:]; for k = 0 this is s[0:], i.e. the
whole string. -/
def pySliceLastFrom (s : String) (k : Nat) : String :=
  if k = 0 then s else ⟨s.data.drop (s.length - k)⟩

/-- Substring test: model of the Python expression needle in hay. -/
def strContains (hay needle : String) : Bool :=
  hay.data.tails.any (fun t => needle.data.isPrefixOf t)

def pyLower (s : String) : String := s.toLower

def charDigit (c : Char) : Nat := c.toNat - 48

/-! ## Cells, rows and tables (model of pandas values) -/

/-- Tagged Python cell value: string, exact number (Python int or float,
modelled as a rational), float NaN (the pandas missing value), or None. -/
inductive Cell where
  | str (s : String)
  | num (q : ℚ)
  | nan
  | none
deriving DecidableEq, Repr

/-- Python float value: a real value (exact rational model) or NaN. -/
inductive PyFloat where
  | val (q : ℚ)
  | nan
deriving DecidableEq, Repr

/-- Model of str() on a number; exact for integral values, which are the
only numbers the embedded code converts to keys. -/
def pyNumStr (q : ℚ) : String :=
  if q.den = 1 then
    (if q.num < 0 then "-" ++ pyIntStr q.num.natAbs else pyIntStr q.num.natAbs)
  else
    pyIntStr q.num.natAbs ++ "/" ++ pyIntStr q.den

/-- Model of str(cell). -/
def pyStrOfCell : Cell → String
  | .str s => s
  | .num q => pyNumStr q
  | .nan => "nan"
  | .none => "None"

def parseDigitList (cs : List Char) : Option Nat :=
  if cs ≠ [] ∧ cs.all Char.isDigit then
    some (cs.foldl (fun a c => a * 10 + charDigit c) 0)
  else
    Option.none

/-- Model of float(s) on a string: optional sign, digits, optional decimal
part; "nan" parses to NaN; anything else raises ValueError. -/
def pyParseFloat (s : String) : Option PyFloat :=
  let t := (pyLower s.trim).data
  if t = ['n', 'a', 'n'] then some .nan else
  let (sgn, t) : ℚ × List Char := match t with
    | '-' :: r => (-1, r)
    | '+' :: r => (1, r)
    | r => (1, r)
  match t.splitOn '.' with
  | [w] => (parseDigitList w).map (fun n => .val (sgn * n))
  | [w, f] =>
    if w = [] ∧ f = [] then Option.none else
    if (w = [] ∨ (w.all Char.isDigit)) ∧ (f = [] ∨ (f.all Char.isDigit)) ∧ ¬ (w = [] ∧ f = []) then
      some (.val (sgn * (((parseDigitList w).getD 0 : ℚ) +
            ((parseDigitList f).getD 0 : ℚ) / (10 ^ f.length : ℚ))))
    else Option.none
  | _ => Option.none

/-- Model of float(val) on a cell; ValueError and TypeError become errors. -/
def pyFloatOfCell : Cell → Except String PyFloat
  | .num q => .ok (.val q)
  | .nan => .ok .nan
  | .none => .error "TypeError"
  | .str s =>
    match pyParseFloat s with
    | some f => .ok f
    | Option.none => .error "ValueError"

/-- Model of int(s) for a digit string; anything else raises ValueError. -/
def pyIntParse (s : String) : Except String Nat :=
  match parseDigitList s.data with
  | some n => .ok n
  | Option.none => .error "ValueError"

/-- Round half to even on an exact rational, the tie rule of Python round. -/
def roundHalfEven (q : ℚ) : ℤ :=
  if q - ⌊q⌋ < 1/2 then ⌊q⌋
  else if 1/2 < q - ⌊q⌋ then ⌊q⌋ + 1
  else if ⌊q⌋ % 2 = 0 then ⌊q⌋ else ⌊q⌋ + 1

/-- Model of round(x, 2) on the exact rational value. -/
def pyRound2 (q : ℚ) : ℚ := (roundHalfEven (100 * q) : ℚ) / 100

/-- Python max(a, y) for a real a and float y: returns y exactly when
y > a, so max(a, nan) is a (every comparison with NaN is false). -/
def pyMaxFloat (a : ℚ) : PyFloat → PyFloat
  | .nan => .val a
  | .val b => .val (if a < b then b else a)

def pyMulFloat : PyFloat → ℚ → PyFloat
  | .nan, _ => .nan
  | .val x, f => .val (x * f)

def pyRoundFloat2 : PyFloat → PyFloat
  | .nan => .nan
  | .val x => .val (pyRound2 x)

/-- Python truth value of a cell (NaN is truthy). -/
def cellTruthy : Cell → Bool
  | .str s => s ≠ ""
  | .num q => q ≠ 0
  | .nan => true
  | .none => false

/-- Model of pd.notna. -/
def pdNotna : Cell → Bool
  | .nan => false
  | .none => false
  | _ => true

/-- Python comparison float > threshold (false when the float is NaN). -/
def pyGtQ (f : PyFloat) (t : ℚ) : Bool :=
  match f with
  | .nan => false
  | .val x => decide (t < x)

/-- A pandas row: ordered association list of column name to cell. -/
abbrev Row := List (String × Cell)

/-- A pandas DataFrame: ordered columns and index-labelled rows. A row
carries its pandas index label, which travels with the row when rows are
reordered. -/
structure Table where
  cols : List String
  rows : List (Nat × Row)
deriving DecidableEq, Repr

def rowGet (r : Row) (c : String) : Option Cell := (r.find? (fun p => p.1 = c)).map (·.2)

/-- Model of row.get(c, d). -/
def rowGetD (r : Row) (c : String) (d : Cell) : Cell := (rowGet r c).getD d

/-- Model of new[c] = v on a row that has column c (all writes of the
embedded code target existing columns). -/
def rowSet (r : Row) (c : String) (v : Cell) : Row :=
  r.map (fun p => if p.1 = c then (p.1, v) else p)

def getColumn (t : Table) (c : String) : List Cell := t.rows.map (fun ir => rowGetD ir.2 c Cell.none)

def setColumn (t : Table) (c : String) (vs : List Cell) : Table :=
  ⟨t.cols, (t.rows.zip vs).map (fun p => (p.1.1, rowSet p.1.2 c p.2))⟩

/-! ## Configuration (model of _setup_default_config in Main.py) -/

structure GenConfig where
  maleNames : List String
  femaleNames : List String
  cities : List String
  isps : List String
  card_brands : List (String × String)
  amount_ranges : List (String × (ℚ × ℚ × ℚ))
  high_amount_threshold : ℚ
  high_amount_risk_increase : ℚ
  new_account_risk_increase : ℚ
  base_fraud_probability : ℚ
  max_fraud_probability : ℚ
deriving DecidableEq, Repr

def defaultGenConfig : GenConfig where
  maleNames := ["Aarav", "Vivaan", "Kabir", "Rohan", "Arjun", "Aditya", "Vihaan",
                "Ishaan", "Reyansh", "Atharv", "Noah", "Oliver", "James", "Liam",
                "Henry", "Lucas", "Leo", "Max", "Finn", "Ethan", "Ravi", "Pranav",
                "Priyansh", "Piyush"]
  femaleNames := ["Ananya", "Ishita", "Kavya", "Riya", "Sanya", "Meera", "Diya",
                  "Myra", "Aadhya", "Navya", "Zara", "Emma", "Olivia", "Ava",
                  "Sophia", "Isabella", "Aashi", "Pooja", "Priyanshi", "Tashvi"]
  cities := ["Mumbai", "Delhi", "Bengaluru", "Hyderabad", "Chennai", "Pune",
             "Kolkata", "Jaipur", "Ahmedabad", "Lucknow", "Surat", "Indore",
             "Bhopal", "Nagpur", "Noida", "Visakhapatnam", "Chandigarh"]
  isps := ["Jio", "Airtel", "BSNL", "Vodafone", "ACT", "Hathway", "Verizon",
           "T-Mobile", "AT&T", "Spectrum", "Comcast"]
  card_brands := [("visa", "4"), ("mastercard", "5"), ("amex", "3")]
  amount_ranges := [("TransactionAmount", (6/10, 17/10, 50)),
                    ("SenderBankBalance", (8/10, 13/10, 100)),
                    ("ReceiverBankBalance", (8/10, 13/10, 100)),
                    ("SenderAnnualIncome", (85/100, 125/100, 50000)),
                    ("ReceiverAnnualIncome", (85/100, 125/100, 50000))]
  high_amount_threshold := 8000
  high_amount_risk_increase := 25/100
  new_account_risk_increase := 15/100
  base_fraud_probability := 1/10
  max_fraud_probability := 9/10

/-! ## Keyed derivation core (model of _rng and _hashint in Main.py) -/

/-- Model of _hashint: sha256 of salt + "|" + key as an integer. -/
def hashint (salt key : String) : Nat := sha256Int (salt ++ "|" ++ key)

/-- Model of the seed of _rng: _hashint reduced mod 2^32. -/
def rngSeed (salt key : String) : Nat := hashint salt key % pow32

/-- Model of list indexing lst[i] with a nonnegative index. -/
def pyIndex (l : List α) (i : Nat) : Except String α :=
  match l.get? i with
  | some v => .ok v
  | Option.none => .error "IndexError"

/-- Model of h % len(lst); a zero modulus raises ZeroDivisionError. -/
def pyModLen (h n : Nat) : Except String Nat :=
  if n = 0 then .error "ZeroDivisionError" else .ok (h % n)

/-! ## Field synthesizers (model of the _det functions in Main.py) -/

/-- Gender-dependent name list selection of _det_name: a truthy gender is
lowercased (a non-string truthy value would raise AttributeError), male/m
and female/f pick the single lists, anything else both lists. -/
def genderList (cfg : GenConfig) (gender : Cell) : Except String (List String) :=
  match gender with
  | .none => .ok (cfg.maleNames ++ cfg.femaleNames)
  | .str s =>
    if s = "" then .ok (cfg.maleNames ++ cfg.femaleNames)
    else if pyLower s = "male" ∨ pyLower s = "m" then .ok cfg.maleNames
    else if pyLower s = "female" ∨ pyLower s = "f" then .ok cfg.femaleNames
    else .ok (cfg.maleNames ++ cfg.femaleNames)
  | .num q => if q = 0 then .ok (cfg.maleNames ++ cfg.femaleNames) else .error "AttributeError"
  | .nan => .error "AttributeError"

def det_name (cfg : GenConfig) (salt key : String) (gender : Cell) : Except String String := do
  let r := hashint salt ("name|" ++ key)
  let lst ← genderList cfg gender
  let i ← pyModLen r lst.length
  pyIndex lst i

def det_city (cfg : GenConfig) (salt key : String) : Except String String := do
  let r := hashint salt ("city|" ++ key)
  let i ← pyModLen r cfg.cities.length
  pyIndex cfg.cities i

def det_isp (cfg : GenConfig) (salt key : String) : Except String String := do
  let r := hashint salt ("isp|" ++ key)
  let i ← pyModLen r cfg.isps.length
  pyIndex cfg.isps i

def det_ip (salt key : String) : String :=
  let seed := rngSeed salt ("ip|" ++ key)
  let p1 := pyRandint seed 1 223 0
  let p2 := pyRandint seed 0 255 p1.2
  let p3 := pyRandint seed 0 255 p2.2
  let p4 := pyRandint seed 1 254 p3.2
  pyIntStr p1.1 ++ "." ++ pyIntStr p2.1 ++ "." ++ pyIntStr p3.1 ++ "." ++ pyIntStr p4.1

def fmt02 (n : Nat) : String := pyZfill (pyIntStr n) 2
def fmt04 (n : Nat) : String := pyZfill (pyIntStr n) 4

def det_date_young (salt key : String) (todayYear minAge maxAge : Nat) : String :=
  let seed := rngSeed salt ("dob|" ++ key)
  let page := pyRandint seed minAge maxAge 0
  let year := todayYear - page.1
  let pmonth := pyRandint seed 1 12 page.2
  let pday := pyRandint seed 1 28 pmonth.2
  fmt04 year ++ "-" ++ fmt02 pmonth.1 ++ "-" ++ fmt02 pday.1

def det_date_recent (salt key : String) (todayYear years : Nat) : String :=
  let seed := rngSeed salt ("recent|" ++ key)
  let poff := pyRandint seed 0 years 0
  let year := todayYear - poff.1
  let pmonth := pyRandint seed 1 12 poff.2
  let pday := pyRandint seed 1 28 pmonth.2
  fmt04 year ++ "-" ++ fmt02 pmonth.1 ++ "-" ++ fmt02 pday.1

def det_time (salt key : String) : String :=
  let seed := rngSeed salt ("time|" ++ key)
  let ph := pyRandint seed 0 23 0
  let pm := pyRandint seed 0 59 ph.2
  let ps := pyRandint seed 0 59 pm.2
  fmt02 ph.1 ++ ":" ++ fmt02 pm.1 ++ ":" ++ fmt02 ps.1

def luhnDouble (d : Nat) : Nat := if 2 * d > 9 then 2 * d - 9 else 2 * d

/-- Digit transform of _luhn_checkdigit: the loop runs i = len-1, len-3, ...
so the digit at index i is doubled exactly when len-1-i is even. -/
def luhnTransformed (ds : List Nat) : List Nat :=
  ds.mapIdx (fun i d => if (ds.length - 1 - i) % 2 = 0 then luhnDouble d else d)

def luhn_checkdigit (num15 : String) : String :=
  let s := (luhnTransformed (num15.data.map charDigit)).sum
  pyIntStr ((10 - s % 10) % 10)

/-- Model of _det_card: resolve the brand against the configured map with
fallback to "visa", build the 15-digit body from the decimal digits of the
keyed hash, and append the Luhn check digit. -/
def det_card (cfg : GenConfig) (salt key brand : String) : Except String String := do
  let b := if (cfg.card_brands.find? (fun p => p.1 = brand)).isSome then brand else "visa"
  let pfx ← match cfg.card_brands.find? (fun p => p.1 = b) with
            | some p => Except.ok p.2
            | Option.none => Except.error "KeyError"
  let base := pyZfill (pfx ++ pySliceTo (pyIntStr (hashint salt ("card|" ++ key))) (15 - (pfx.length : Int))) 15
  .ok (base ++ luhn_checkdigit base)

def det_digits (salt key : String) (n : Nat) : String :=
  pyZfill (pySliceLastFrom (pyIntStr (hashint salt ("digits|" ++ key))) n) n

/-- Model of _perturb: float(val) failing with ValueError or TypeError
returns val unchanged; otherwise a uniform factor in [low, high] is drawn
from the seeded generator, multiplied, clamped at floor, rounded to 2
decimals. A NaN input reaches the arithmetic, where max(floor, nan) is
floor. -/
def perturb (val : Cell) (salt key : String) (low high floor : ℚ) : Cell :=
  match pyFloatOfCell val with
  | .error _ => val
  | .ok x =>
    let seed := rngSeed salt ("noise|" ++ key)
    let factor := pyUniform seed low high
    match pyRoundFloat2 (pyMaxFloat floor (pyMulFloat x factor)) with
    | .val q => .num q
    | .nan => .nan

/-- Model of _first_nonempty. -/
def first_nonempty (row : Row) : List String → String
  | [] => ""
  | c :: rest =>
    match rowGet row c with
    | some v =>
      if pdNotna v ∧ (pyStrOfCell v).trim ≠ "" then pyStrOfCell v else first_nonempty row rest
    | Option.none => first_nonempty row rest

/-! ## Column classifier (model of _detect_column_types in Main.py) -/

structure ColumnTypes where
  name_columns : List String
  address_columns : List String
  id_columns : List String
  date_columns : List String
  amount_columns : List String
  phone_columns : List String
  email_columns : List String
  ip_columns : List String
  gender_columns : List String
deriving DecidableEq, Repr

def anyContains (col : String) (keys : List String) : Bool := keys.any (fun k => strContains col k)

def classifyStep (ct : ColumnTypes) (col : String) : ColumnTypes :=
  let l := pyLower col
  if anyContains l ["name", "firstname", "lastname"] then
    { ct with name_columns := ct.name_columns ++ [col] }
  else if anyContains l ["address", "city", "location"] then
    { ct with address_columns := ct.address_columns ++ [col] }
  else if anyContains l ["id", "ssn", "aadhaar", "aadhar", "pan"] then
    { ct with id_columns := ct.id_columns ++ [col] }
  else if anyContains l ["date", "time", "dob", "birth"] then
    { ct with date_columns := ct.date_columns ++ [col] }
  else if anyContains l ["amount", "balance", "income", "price", "value"] then
    { ct with amount_columns := ct.amount_columns ++ [col] }
  else if anyContains l ["phone", "mobile", "contact"] then
    { ct with phone_columns := ct.phone_columns ++ [col] }
  else if strContains l "email" then
    { ct with email_columns := ct.email_columns ++ [col] }
  else if strContains l "ip" then
    { ct with ip_columns := ct.ip_columns ++ [col] }
  else if strContains l "gender" then
    { ct with gender_columns := ct.gender_columns ++ [col] }
  else ct

def detect_column_types (cols : List String) : ColumnTypes :=
  cols.foldl classifyStep ⟨[], [], [], [], [], [], [], [], []⟩

/-! ## Row assembly (model of generate_synthetic_data in Main.py) -/

/-- Sequential fold over columns with Python exception propagation; each
loop of the row assembly is such a fold. -/
def foldME (step : Row → String → Except String Row) : Row → List String → Except String Row
  | nr, [] => .ok nr
  | nr, c :: cs =>
    match step nr c with
    | .ok nr2 => foldME step nr2 cs
    | .error e => .error e

def txnKeyOf (ir : Nat × Row) : String := pyStrOfCell (rowGetD ir.2 "TransactionID" (.num ir.1))

def senderKeyOf (ir : Nat × Row) : String :=
  let k := first_nonempty ir.2 ["SenderAadhar", "SenderSSN", "SenderPhone", "SenderName"]
  if k = "" then "snd" ++ pyIntStr ir.1 else k

def receiverKeyOf (ir : Nat × Row) : String :=
  let k := first_nonempty ir.2 ["ReceiverSSN", "ReceiverCard", "ReceiverPhone", "ReceiverName"]
  if k = "" then "rcv" ++ pyIntStr ir.1 else k

def nameStep (cfg : GenConfig) (cols : List String) (salt skey rkey : String) (row : Row)
    (nr : Row) (col : String) : Except String Row := do
  let base_key := if strContains (pyLower col) "receiver" then rkey else skey
  let gender :=
    if strContains (pyLower col) "sender" ∧ cols.contains "SenderGender" then
      rowGetD row "SenderGender" Cell.none
    else if strContains (pyLower col) "receiver" ∧ cols.contains "ReceiverGender" then
      rowGetD row "ReceiverGender" Cell.none
    else Cell.none
  let v ← det_name cfg salt (base_key ++ "|" ++ col) gender
  .ok (rowSet nr col (.str v))

def addressStep (cfg : GenConfig) (salt skey rkey : String)
    (nr : Row) (col : String) : Except String Row := do
  let base_key := if strContains (pyLower col) "receiver" then rkey else skey
  let v ← det_city cfg salt (base_key ++ "|" ++ col)
  .ok (rowSet nr col (.str v))

def ipStep (salt skey rkey : String) (nr : Row) (col : String) : Except String Row :=
  let base_key := if strContains (pyLower col) "receiver" then rkey else skey
  .ok (rowSet nr col (.str (det_ip salt (base_key ++ "|" ++ col))))

def ispStep (cfg : GenConfig) (salt skey rkey : String)
    (nr : Row) (col : String) : Except String Row := do
  let base_key := if strContains (pyLower col) "receiver" then rkey else skey
  let v ← det_isp cfg salt (base_key ++ "|" ++ col)
  .ok (rowSet nr col (.str v))

def genderStep (salt skey rkey : String) (nr : Row) (col : String) : Except String Row :=
  let base_key := if strContains (pyLower col) "receiver" then rkey else skey
  let seed := rngSeed salt ("gender|" ++ base_key)
  .ok (rowSet nr col (.str (pyChoice seed ["Male", "Female", "Other"])))

/-- All per-row work of generate_synthetic_data before the fraud label, in
source order: names, addresses, IDs, cards, IPs, ISPs, gender, dates, and
amount perturbation. -/
def synthRowPre (cfg : GenConfig) (cols : List String) (ct : ColumnTypes) (salt : String)
    (todayYear : Nat) (ir : Nat × Row) : Except String Row := do
  let row := ir.2
  let skey := senderKeyOf ir
  let rkey := receiverKeyOf ir
  let tkey := txnKeyOf ir
  let new := row
  let new ← foldME (nameStep cfg cols salt skey rkey row) new ct.name_columns
  let new ← foldME (addressStep cfg salt skey rkey) new ct.address_columns
  let new := if cols.contains "SenderAadhar" then
      rowSet new "SenderAadhar" (.str (det_digits salt (skey ++ "|aadhaar") 12)) else new
  let new := if cols.contains "SenderSSN" then
      rowSet new "SenderSSN" (.str (det_digits salt (skey ++ "|ssn") 9)) else new
  let new := if cols.contains "ReceiverSSN" then
      rowSet new "ReceiverSSN" (.str (det_digits salt (rkey ++ "|ssn") 9)) else new
  let new ← if cols.contains "SenderCard" then do
      let c ← det_card cfg salt skey "visa"
      Except.ok (rowSet new "SenderCard" (.str c))
    else Except.ok new
  let new ← if cols.contains "ReceiverCard" then do
      let c ← det_card cfg salt rkey "mc"
      Except.ok (rowSet new "ReceiverCard" (.str c))
    else Except.ok new
  let new ← foldME (ipStep salt skey rkey) new ct.ip_columns
  let new ← foldME (ispStep cfg salt skey rkey) new (cols.filter (fun c => strContains (pyLower c) "isp"))
  let new ← foldME (genderStep salt skey rkey) new ct.gender_columns
  let new := if cols.contains "SenderDOB" then
      rowSet new "SenderDOB" (.str (det_date_young salt skey todayYear 18 70)) else new
  let new := if cols.contains "ReceiverDOB" then
      rowSet new "ReceiverDOB" (.str (det_date_young salt rkey todayYear 18 70)) else new
  let new := if cols.contains "TransactionDate" then
      rowSet new "TransactionDate" (.str (det_date_recent salt tkey todayYear 9)) else new
  let new := if cols.contains "TransactionTime" then
      rowSet new "TransactionTime" (.str (det_time salt tkey)) else new
  let new := if cols.contains "ReceiverAccountCreationDate" then
      rowSet new "ReceiverAccountCreationDate" (.str (det_date_recent salt rkey todayYear 10)) else new
  let new := if cols.contains "LastTransactionDate" then
      rowSet new "LastTransactionDate" (.str (det_date_recent salt skey todayYear 2)) else new
  let new := cfg.amount_ranges.foldl (fun nr p =>
      if cols.contains p.1 then
        rowSet nr p.1 (perturb (rowGetD row p.1 Cell.none) salt (tkey ++ "|" ++ p.1) p.2.1 p.2.2.1 p.2.2.2)
      else nr) new
  .ok new

/-- Creation-year extraction of the fraud step:
int(new["ReceiverAccountCreationDate"][:4]) when the column exists. -/
def creationYearOf (cols : List String) (new : Row) : Except String (Option Nat) :=
  if cols.contains "ReceiverAccountCreationDate" then
    match rowGetD new "ReceiverAccountCreationDate" Cell.none with
    | .str s => (pyIntParse (pySliceTo s 4)).map some
    | _ => .error "TypeError"
  else .ok Option.none

/-- Amount read of the fraud step: float(new.get("TransactionAmount", 0) or 0). -/
def fraudAmountOf (new : Row) : Except String PyFloat :=
  let a0 := rowGetD new "TransactionAmount" (.num 0)
  pyFloatOfCell (if cellTruthy a0 then a0 else .num 0)

/-- Fraud probability of generate_synthetic_data: the base, then the
high-amount increase added when the (perturbed) amount exceeds the
threshold, then the new-account increase added when the (resynthesized)
creation year is at least the current year minus one. -/
def codeFraudProb (cfg : GenConfig) (todayYear : Nat) (amtF : PyFloat) (cyOpt : Option Nat) : ℚ :=
  let prob := cfg.base_fraud_probability
  let prob := if pyGtQ amtF cfg.high_amount_threshold then prob + cfg.high_amount_risk_increase else prob
  match cyOpt with
  | some cy => if todayYear - 1 ≤ cy then prob + cfg.new_account_risk_increase else prob
  | Option.none => prob

/-- Fraud label: 1 exactly when the seeded uniform draw is below the
clamped probability. -/
def fraudLabel (cfg : GenConfig) (salt : String) (todayYear : Nat) (tkey : String)
    (amtF : PyFloat) (cyOpt : Option Nat) : ℚ :=
  if pyRandom53 (rngSeed salt ("fraud|" ++ tkey))
      < min (codeFraudProb cfg todayYear amtF cyOpt) cfg.max_fraud_probability then 1 else 0

/-- Fraud label synthesis of generate_synthetic_data. -/
def fraudStep (cfg : GenConfig) (cols : List String) (salt : String) (todayYear : Nat)
    (tkey : String) (new : Row) : Except String Row :=
  if cols.contains "Fraud" then
    match fraudAmountOf new with
    | .error e => .error e
    | .ok amtF =>
      match creationYearOf cols new with
      | .error e => .error e
      | .ok cyOpt =>
        .ok (rowSet new "Fraud" (.num (fraudLabel cfg salt todayYear tkey amtF cyOpt)))
  else .ok new

/-- One full row of generate_synthetic_data. -/
def synthRow (cfg : GenConfig) (cols : List String) (ct : ColumnTypes) (salt : String)
    (todayYear : Nat) (ir : Nat × Row) : Except String Row :=
  match synthRowPre cfg cols ct salt todayYear ir with
  | .error e => .error e
  | .ok new => fraudStep cfg cols salt todayYear (txnKeyOf ir) new

/-- The row loop of generate_synthetic_data; each output row keeps the
pandas index label of its input row. -/
def synthRows (cfg : GenConfig) (cols : List String) (ct : ColumnTypes) (salt : String)
    (todayYear : Nat) : List (Nat × Row) → Except String (List (Nat × Row))
  | [] => .ok []
  | ir :: rest =>
    match synthRow cfg cols ct salt todayYear ir with
    | .error e => .error e
    | .ok nr =>
      match synthRows cfg cols ct salt todayYear rest with
      | .error e => .error e
      | .ok out => .ok ((ir.1, nr) :: out)

/-- Model of salt resolution: the argument if it is a non-empty string,
else hex(random.getrandbits(128)) where rnd stands for the 128 random bits
drawn at run time. -/
def resolveSalt (salt : Option String) (rnd : Nat) : String :=
  match salt with
  | some s => if s ≠ "" then s else pyHex rnd
  | Option.none => pyHex rnd

/-- Model of SyntheticDataGenerator.generate_synthetic_data. The fresh
randomness used when no salt is supplied and the current year are explicit
inputs of the embedding. -/
def generate_synthetic_data (cfg : GenConfig) (df : Table) (salt : Option String)
    (rnd : Nat) (todayYear : Nat) : Except String Table :=
  let s := resolveSalt salt rnd
  let ct := detect_column_types df.cols
  match synthRows cfg df.cols ct s todayYear df.rows with
  | .error e => .error e
  | .ok rs => .ok ⟨df.cols, rs⟩

/-! ## Tokenization engine (model of tokenizer.py) -/

structure TokConfig where
  name_list : List String
  city_list : List String
  mask_digits : Nat
  pfx_aadhaar : String
  pfx_ssn : String
  pfx_card : String
  pfx_receiver_card : String
deriving DecidableEq, Repr

def defaultTokConfig : TokConfig where
  name_list := ["Aarav", "Vivaan", "Kabir", "Rohan", "Arjun", "Aditya", "Vihaan", "Ishaan",
                "Reyansh", "Atharv", "Ananya", "Ishita", "Kavya", "Riya", "Sanya", "Meera",
                "Diya", "Myra", "Aadhya", "Navya", "Joe", "Alex", "Mack", "Zara", "Noah",
                "Oliver", "James", "Liam", "Emma", "Olivia", "Ava", "Sophia", "Isabella",
                "Henry", "Lucas", "Leo", "Max", "Finn", "Ethan", "Ravi", "Tashvi", "Aarav",
                "Aashi", "Pooja", "Pranav", "Priyanshi", "Priyansh", "Piyush", "Shorya"]
  city_list := ["Mumbai", "Delhi", "Bengaluru", "Hyderabad", "Chennai", "Pune", "Kolkata",
                "Jaipur", "Ahmedabad", "Lucknow", "Surat", "Indore", "Bhopal", "Nagpur",
                "Noida", "Visakhapatnam", "Chandigarh", "California", "Texas", "Florida",
                "New York", "Maryland", "Colorado"]
  mask_digits := 4
  pfx_aadhaar := "AAD"
  pfx_ssn := "SSN"
  pfx_card := "CARD"
  pfx_receiver_card := "RCARD"

/-- Model of DataTokenizer._token. -/
def tok_token (pfx raw salt : String) : String :=
  pfx ++ "-" ++ pySliceTo (sha256Hex (salt ++ "|" ++ raw)) 12

/-- Model of DataTokenizer._mask_keep_last: keep only digits, return them
unmasked when there are at most `last` of them, else mask all but the last
`last` with the mask character. -/
def mask_keep_last (cfg : TokConfig) (num : String) (last : Option Nat) : String :=
  let l := last.getD cfg.mask_digits
  let s : String := ⟨num.data.filter Char.isDigit⟩
  if s.length ≤ l then s
  else ⟨List.replicate (s.length - l) '*'⟩ ++ pySliceLastFrom s l

/-- Model of DataTokenizer._mask_keep_first_last. -/
def mask_keep_first_last (num : String) (keep : Nat) : String :=
  let s : String := ⟨num.data.filter Char.isDigit⟩
  if s.length ≤ keep * 2 then s
  else pySliceTo s (keep : Int) ++ ⟨List.replicate (s.length - keep * 2) '*'⟩ ++ pySliceLastFrom s keep

def city_from_hash (cfg : TokConfig) (text salt : String) : Except String String := do
  let h := sha256Int (salt ++ "|" ++ text)
  let i ← pyModLen h cfg.city_list.length
  pyIndex cfg.city_list i

def name_from_hash (cfg : TokConfig) (text salt : String) : Except String String := do
  let h := sha256Int (salt ++ "|" ++ text)
  let i ← pyModLen h cfg.name_list.length
  pyIndex cfg.name_list i

def email_from_hash (cfg : TokConfig) (text salt : String) : Except String String := do
  let n ← name_from_hash cfg text (salt ++ "|email")
  .ok ((pyLower n).replace " " "." ++ "@" ++ "example.com")

/-- The ordered transformation map of tokenize_dataset: column predicate
paired with the per-cell transform (cell string, column name). -/
def tokRules (cfg : TokConfig) (salt : String) :
    List ((String → Bool) × (String → String → Except String String)) :=
  [ (fun c => strContains (pyLower c) "name" ∧ ¬ strContains (pyLower c) "transaction"
        ∧ ¬ strContains (pyLower c) "location",
     fun v c => name_from_hash cfg v (salt ++ "|" ++ c)),
    (fun c => strContains (pyLower c) "aadhaar" ∨ strContains (pyLower c) "aadhar",
     fun v _ => .ok (tok_token cfg.pfx_aadhaar v salt)),
    (fun c => pyLower c = "ssn" ∨ strContains (pyLower c) "ssn",
     fun v _ => .ok (tok_token cfg.pfx_ssn v salt)),
    (fun c => strContains (pyLower c) "card" ∧ strContains (pyLower c) "receiver",
     fun v _ => .ok (tok_token cfg.pfx_receiver_card v salt)),
    (fun c => strContains (pyLower c) "card",
     fun v _ => .ok (tok_token cfg.pfx_card v salt)),
    (fun c => strContains (pyLower c) "phone" ∨ strContains (pyLower c) "mobile",
     fun v _ => .ok (mask_keep_last cfg v Option.none)),
    (fun c => strContains (pyLower c) "email",
     fun v c => email_from_hash cfg v (salt ++ "|" ++ c)),
    (fun c => strContains (pyLower c) "address",
     fun v c => city_from_hash cfg v (salt ++ "|" ++ c)) ]

/-- Model of out[col].astype(str).apply(transform): transform every cell
string of the column, failing on the first raised exception. -/
def tokMapCells (tf : String → String → Except String String) (col : String) :
    List Cell → Except String (List String)
  | [] => .ok []
  | c :: cs =>
    match tf (pyStrOfCell c) col with
    | .error e => .error e
    | .ok v =>
      match tokMapCells tf col cs with
      | .error e => .error e
      | .ok vs => .ok (v :: vs)

/-- Rule application to one column: the first matching rule whose transform
succeeds on every cell (after astype(str)) yields the new column; a raised
exception is caught, the assignment does not happen, and the next matching
rules are still tried; with no matching successful rule the column keeps
its cells. -/
def applyRulesToColumn (rules : List ((String → Bool) × (String → String → Except String String)))
    (col : String) (cells : List Cell) : Option (List String) :=
  match rules with
  | [] => Option.none
  | (cond, tf) :: rest =>
    if cond col then
      match tokMapCells tf col cells with
      | .ok vs => some vs
      | .error _ => applyRulesToColumn rest col cells
    else applyRulesToColumn rest col cells

def tokenizeFold (rules : List ((String → Bool) × (String → String → Except String String))) :
    Table → List String → Table
  | t, [] => t
  | t, col :: cs =>
    match applyRulesToColumn rules col (getColumn t col) with
    | some vs => tokenizeFold rules (setColumn t col (vs.map Cell.str)) cs
    | Option.none => tokenizeFold rules t cs

/-- Model of DataTokenizer.tokenize_dataset. -/
def tokenize_dataset (cfg : TokConfig) (df : Table) (salt : Option String) (rnd : Nat) : Table :=
  let s := resolveSalt salt rnd
  tokenizeFold (tokRules cfg s) df df.cols

/-! ## Claim-side definitions -/

/-- Luhn weighted sum over digits listed from the rightmost; the flag tells
whether the current (rightmost remaining) digit is doubled. -/
def luhnSumRev : Bool → List Nat → Nat
  | _, [] => 0
  | dbl, d :: ds => (if dbl then luhnDouble d else d) + luhnSumRev (!dbl) ds

/-- Standard Luhn validation: from the rightmost digit, double every second
digit starting with the second from the right; the sum must be divisible
by 10. -/
def luhnValid (s : String) : Prop :=
  luhnSumRev false ((s.data.map charDigit).reverse) % 10 = 0

/-- The fraud probability exactly as claim C4 words it, read off a
synthesized output row: base, plus the high-amount increase if the row's
(perturbed) amount exceeds the threshold, plus the new-account increase if
the row's (resynthesized) receiver account creation year is at least the
current year minus one; not yet clamped. -/
def specFraudProb (cfg : GenConfig) (todayYear : Nat) (cols : List String) (out : Row) : ℚ :=
  cfg.base_fraud_probability
  + (if pyGtQ ((fraudAmountOf out).toOption.getD (.val 0)) cfg.high_amount_threshold then
       cfg.high_amount_risk_increase else 0)
  + (if (match (creationYearOf cols out).toOption with
         | some (some cy) => decide (todayYear - 1 ≤ cy)
         | _ => false) then cfg.new_account_risk_increase else 0)

instance {ε α : Type} [DecidableEq ε] [DecidableEq α] : DecidableEq (Except ε α) := fun x y =>
  match x, y with
  | .error a, .error b =>
    if h : a = b then .isTrue (by rw [h]) else .isFalse (fun hh => h (Except.error.inj hh))
  | .ok a, .ok b =>
    if h : a = b then .isTrue (by rw [h]) else .isFalse (fun hh => h (Except.ok.inj hh))
  | .error _, .ok _ => .isFalse (fun hh => Except.noConfusion hh)
  | .ok _, .error _ => .isFalse (fun hh => Except.noConfusion hh)

/-! ## Generic helper lemmas -/

theorem pyMaxFloat_val (a b : ℚ) : pyMaxFloat a (.val b) = .val (max a b) := by
  simp only [pyMaxFloat]
  rcases lt_or_ge a b with h | h
  · rw [if_pos h, max_eq_right h.le]
  · rw [if_neg (not_lt.mpr h), max_eq_left h]

theorem roundHalfEven_ge_floor (q : ℚ) : ⌊q⌋ ≤ roundHalfEven q := by
  unfold roundHalfEven
  split_ifs <;> omega

theorem pyRound2_ge_centi (floor q : ℚ) (hfl : (100 * floor).den = 1) (hq : floor ≤ q) :
    floor ≤ pyRound2 q := by
  have hint : ((100 * floor).num : ℚ) = 100 * floor := (Rat.den_eq_one_iff _).mp hfl
  have h1 : (100 * floor).num ≤ ⌊(100 : ℚ) * q⌋ := by
    have : ((100 * floor).num : ℚ) ≤ 100 * q := by rw [hint]; linarith
    exact Int.le_floor.mpr this
  have h2 : (100 * floor).num ≤ roundHalfEven (100 * q) :=
    le_trans h1 (roundHalfEven_ge_floor _)
  have h3 : ((100 * floor).num : ℚ) ≤ (roundHalfEven (100 * q) : ℚ) := by exact_mod_cast h2
  rw [hint] at h3
  unfold pyRound2
  linarith

theorem pyRound2_centi_fix (q : ℚ) (h : (100 * q).den = 1) : pyRound2 q = q := by
  have hint : ((100 * q).num : ℚ) = 100 * q := (Rat.den_eq_one_iff _).mp h
  have hfl : ⌊(100 : ℚ) * q⌋ = (100 * q).num := by
    rw [show ((100 : ℚ) * q) = ((100 * q).num : ℚ) from hint.symm]
    exact Int.floor_intCast _
  unfold pyRound2 roundHalfEven
  rw [hfl]
  have hz : (100 : ℚ) * q - ((100 * q).num : ℚ) = 0 := by rw [hint]; ring
  rw [hz, if_pos (by norm_num), hint]
  ring

theorem temper_lt (y : Nat) : temper y < pow32 := by
  unfold temper
  rw [fNat_eq, fNat_eq, fNat_eq]
  exact Nat.mod_lt _ (by norm_num [pow32])

theorem mtOut_lt (seed k : Nat) : mtOut seed k < pow32 := temper_lt _

theorem pyRandom53_nonneg (seed : Nat) : 0 ≤ pyRandom53 seed := by
  unfold pyRandom53
  positivity

theorem pyRandom53_lt_one (seed : Nat) : pyRandom53 seed < 1 := by
  unfold pyRandom53
  rw [div_lt_one (by norm_num)]
  have hp : pow32 = 4294967296 := rfl
  have h1 : mtOut seed 0 >>> 5 < 134217728 := by
    have h := mtOut_lt seed 0
    rw [hp] at h
    rw [Nat.shiftRight_eq_div_pow]
    have h32 : (2 : Nat) ^ 5 = 32 := rfl
    rw [h32]
    omega
  have h2 : mtOut seed 1 >>> 6 < 67108864 := by
    have h := mtOut_lt seed 1
    rw [hp] at h
    rw [Nat.shiftRight_eq_div_pow]
    have h64 : (2 : Nat) ^ 6 = 64 := rfl
    rw [h64]
    omega
  have hlt : (mtOut seed 0 >>> 5) * 67108864 + (mtOut seed 1 >>> 6) < 9007199254740992 := by
    nlinarith
  exact_mod_cast hlt

theorem pyUniform_mem (seed : Nat) (low high : ℚ) (h : low ≤ high) :
    low ≤ pyUniform seed low high ∧ pyUniform seed low high ≤ high := by
  unfold pyUniform
  have h0 := pyRandom53_nonneg seed
  have h1 := pyRandom53_lt_one seed
  exact ⟨by nlinarith, by nlinarith⟩

theorem rowGet_cons (p : String × Cell) (t : Row) (c : String) :
    rowGet (p :: t) c = if p.1 = c then some p.2 else rowGet t c := by
  simp only [rowGet, List.find?_cons]
  by_cases h : p.1 = c
  · simp [h]
  · simp [h]

theorem rowSet_cons (p : String × Cell) (t : Row) (c : String) (v : Cell) :
    rowSet (p :: t) c v = (if p.1 = c then (p.1, v) else p) :: rowSet t c v := by
  simp [rowSet]

theorem rowGet_rowSet_self (r : Row) (c : String) (v : Cell) (h : c ∈ r.map Prod.fst) :
    rowGet (rowSet r c v) c = some v := by
  induction r with
  | nil => simp at h
  | cons p t ih =>
    rw [rowSet_cons]
    by_cases hp : p.1 = c
    · rw [if_pos hp, rowGet_cons]
      simp [hp]
    · rw [if_neg hp, rowGet_cons, if_neg hp]
      simp only [List.map_cons, List.mem_cons] at h
      rcases h with h | h
      · exact absurd h.symm hp
      · exact ih h

theorem rowGet_rowSet_ne (r : Row) (c c' : String) (v : Cell) (h : c ≠ c') :
    rowGet (rowSet r c v) c' = rowGet r c' := by
  induction r with
  | nil => rfl
  | cons p t ih =>
    rw [rowSet_cons]
    by_cases hp : p.1 = c
    · rw [if_pos hp, rowGet_cons, rowGet_cons]
      have hne : ¬ p.1 = c' := fun hh => h (hp ▸ hh ▸ rfl)
      simp only [hne, if_false]
      exact ih
    · rw [if_neg hp, rowGet_cons, rowGet_cons]
      by_cases hq : p.1 = c'
      · simp [hq]
      · simp only [hq, if_false]
        exact ih

theorem rowSet_keys (r : Row) (c : String) (v : Cell) :
    (rowSet r c v).map Prod.fst = r.map Prod.fst := by
  induction r with
  | nil => rfl
  | cons p t ih =>
    rw [rowSet_cons]
    by_cases hp : p.1 = c
    · simp only [if_pos hp, List.map_cons, ih]
    · simp only [if_neg hp, List.map_cons, ih]

theorem string_data_append (x y : String) : (x ++ y).data = x.data ++ y.data := rfl

theorem string_mk_data (x : String) : (⟨x.data⟩ : String) = x := rfl

/-! ## Claim C5: masking invariant -/

/-- C5 (amended: the kept count must be at least 1; with keep-last-0 the
Python slice s[-0:] is the whole string and the output has length 2L).
Masking a digit string of length L ≥ n ≥ 1 with keep-last-n yields length
L, the last n characters unchanged and the first L−n characters are all
the mask character. -/
theorem C5_mask_keep_last (cfg : TokConfig) (num : String) (last : Option Nat)
    (hd : num.data.all Char.isDigit = true)
    (h1 : 1 ≤ last.getD cfg.mask_digits)
    (hL : last.getD cfg.mask_digits ≤ num.length) :
    (mask_keep_last cfg num last).length = num.length
    ∧ (mask_keep_last cfg num last).data.drop (num.length - last.getD cfg.mask_digits)
        = num.data.drop (num.length - last.getD cfg.mask_digits)
    ∧ ((mask_keep_last cfg num last).data.take (num.length - last.getD cfg.mask_digits)).all
        (fun c => c == '*') = true := by
  have hfilter : num.data.filter Char.isDigit = num.data :=
    List.filter_eq_self.mpr (by simpa [List.all_eq_true] using hd)
  unfold mask_keep_last
  rw [hfilter, string_mk_data]
  by_cases hle : num.length ≤ last.getD cfg.mask_digits
  · rw [if_pos hle]
    have hn : last.getD cfg.mask_digits = num.length := le_antisymm hL hle
    refine ⟨rfl, rfl, ?_⟩
    rw [hn]
    simp
  · rw [if_neg hle]
    push_neg at hle
    unfold pySliceLastFrom
    rw [if_neg (by omega), string_mk_data, string_data_append, string_mk_data]
    have hrep : (List.replicate (num.length - last.getD cfg.mask_digits) '*').length
        = num.length - last.getD cfg.mask_digits := List.length_replicate _ _
    refine ⟨?_, ?_, ?_⟩
    · show (List.replicate (num.length - last.getD cfg.mask_digits) '*'
          ++ num.data.drop (num.length - last.getD cfg.mask_digits)).length = num.length
      rw [List.length_append, List.length_replicate, List.length_drop]
      have hdl : num.data.length = num.length := rfl
      omega
    · rw [List.drop_left' hrep]
    · rw [List.take_left' hrep]
      simp only [List.all_eq_true]
      intro c hc
      simp [List.eq_of_mem_replicate hc]

/-- C5 witness: a 5-digit string masked with the default keep-last-4. -/
theorem C5_mask_keep_last_witness :
    (mask_keep_last defaultTokConfig "12345" Option.none).length = ("12345" : String).length
    ∧ (mask_keep_last defaultTokConfig "12345" Option.none).data.drop 1 = ("12345" : String).data.drop 1
    ∧ ((mask_keep_last defaultTokConfig "12345" Option.none).data.take 1).all (fun c => c == '*') = true :=
  C5_mask_keep_last defaultTokConfig "12345" Option.none (by decide) (by decide) (by decide)

/-- C5 counterexample: with keep-last-0 the claim fails; masking the
digit string "7" (L = 1 ≥ 0 = n) returns "*7" of length 2, not length 1. -/
theorem C5_mask_keep_last_counterexample :
    mask_keep_last defaultTokConfig "7" (some 0) = "*7"
    ∧ ¬ ((mask_keep_last defaultTokConfig "7" (some 0)).length = ("7" : String).length) :=
  ⟨by decide, by decide⟩

/-! ## Claim C10: inputs with few digits come back fully in the clear -/

/-- C10: when the input holds at most n digit characters, _mask_keep_last
returns exactly its digit characters, unmasked; and in general every
output character is a digit of the input or the mask character, so
non-digit characters are always removed. -/
theorem C10_mask_small (cfg : TokConfig) (num : String) (last : Option Nat)
    (h : (num.data.filter Char.isDigit).length ≤ last.getD cfg.mask_digits) :
    mask_keep_last cfg num last = ⟨num.data.filter Char.isDigit⟩
    ∧ (mask_keep_last cfg num last).data.all Char.isDigit = true
    ∧ ∀ (t : String) (m : Option Nat),
        (mask_keep_last cfg t m).data.all (fun c => c.isDigit || c == '*') = true := by
  have hbranch : mask_keep_last cfg num last = ⟨num.data.filter Char.isDigit⟩ := by
    unfold mask_keep_last
    rw [if_pos (by exact h)]
  refine ⟨hbranch, ?_, ?_⟩
  · rw [hbranch]
    simp only [List.all_eq_true]
    intro c hc
    exact List.of_mem_filter hc
  · intro t m
    unfold mask_keep_last
    by_cases hle : (⟨t.data.filter Char.isDigit⟩ : String).length ≤ m.getD cfg.mask_digits
    · rw [if_pos hle]
      simp only [List.all_eq_true]
      intro c hc
      have : c.isDigit = true := List.of_mem_filter hc
      simp [this]
    · rw [if_neg hle]
      rw [string_data_append]
      simp only [List.all_eq_true, List.mem_append]
      intro c hc
      rcases hc with hc | hc
      · simp [List.eq_of_mem_replicate hc]
      · unfold pySliceLastFrom at hc
        by_cases hm : m.getD cfg.mask_digits = 0
        · rw [if_pos hm] at hc
          have : c.isDigit = true := List.of_mem_filter hc
          simp [this]
        · rw [if_neg hm] at hc
          have hmem : c ∈ t.data.filter Char.isDigit := List.drop_subset _ _ hc
          have : c.isDigit = true := List.of_mem_filter hmem
          simp [this]

/-- C10 witness: a phone-style value with exactly 4 digits is returned
fully in the clear under the default configuration, and non-digits are
removed in general. -/
theorem C10_mask_small_witness :
    mask_keep_last defaultTokConfig "12-34" Option.none = "1234"
    ∧ (mask_keep_last defaultTokConfig "12-34" Option.none).data.all Char.isDigit = true
    ∧ (mask_keep_last defaultTokConfig "a1b2c3d4e5" (some 2)).data.all
        (fun c => c.isDigit || c == '*') = true :=
  ⟨(C10_mask_small defaultTokConfig "12-34" Option.none (by decide)).1,
   (C10_mask_small defaultTokConfig "12-34" Option.none (by decide)).2.1,
   (C10_mask_small defaultTokConfig "12-34" Option.none (by decide)).2.2 "a1b2c3d4e5" (some 2)⟩

/-! ## Claim C3: numeric perturbation -/

/-- C3 (amended: a missing NaN cell is not passed through unchanged but
becomes the floor value, and the floor bound needs the floor to be a
multiple of 0.01, as every configured floor is): the factor is uniform in
[low, high]; a numeric value is multiplied, clamped at the floor and
rounded to 2 decimals; every successfully converted input yields a result
at least the floor; an input on which float() raises is returned
unchanged, and no error escapes (perturb is total). -/
theorem C3_perturb (val : Cell) (salt key : String) (low high floor : ℚ)
    (hlh : low ≤ high) (hfl : (100 * floor).den = 1) :
    (low ≤ pyUniform (rngSeed salt ("noise|" ++ key)) low high
      ∧ pyUniform (rngSeed salt ("noise|" ++ key)) low high ≤ high)
    ∧ (∀ q, pyFloatOfCell val = .ok (.val q) →
        perturb val salt key low high floor
          = .num (pyRound2 (max floor (q * pyUniform (rngSeed salt ("noise|" ++ key)) low high))))
    ∧ (∀ f, pyFloatOfCell val = .ok f →
        ∃ q, perturb val salt key low high floor = .num q ∧ floor ≤ q)
    ∧ (∀ e, pyFloatOfCell val = .error e → perturb val salt key low high floor = val) := by
  refine ⟨pyUniform_mem _ low high hlh, ?_, ?_, ?_⟩
  · intro q hq
    unfold perturb
    rw [hq]
    simp only [pyMulFloat, pyMaxFloat_val, pyRoundFloat2]
  · intro f hf
    unfold perturb
    rw [hf]
    cases f with
    | val q =>
      simp only [pyMulFloat, pyMaxFloat_val, pyRoundFloat2]
      refine ⟨_, rfl, ?_⟩
      exact pyRound2_ge_centi floor _ hfl (le_max_left _ _)
    | nan =>
      simp only [pyMulFloat, pyMaxFloat, pyRoundFloat2]
      refine ⟨_, rfl, ?_⟩
      exact pyRound2_ge_centi floor floor hfl le_rfl
  · intro e he
    unfold perturb
    rw [he]

/-- C3 witness: factor bounds for a concrete seed and pass-through of a
None value, at the default TransactionAmount range (0.6, 1.7, 50). -/
theorem C3_perturb_witness :
    ((6 : ℚ)/10 ≤ pyUniform (rngSeed "s1" "noise|k") (6/10) (17/10)
      ∧ pyUniform (rngSeed "s1" "noise|k") (6/10) (17/10) ≤ 17/10)
    ∧ perturb Cell.none "s1" "k" (6/10) (17/10) 50 = Cell.none :=
  ⟨(C3_perturb Cell.none "s1" "k" (6/10) (17/10) 50 (by norm_num)
      (by with_unfolding_all decide)).1,
   (C3_perturb Cell.none "s1" "k" (6/10) (17/10) 50 (by norm_num)
      (by with_unfolding_all decide)).2.2.2 "TypeError" rfl⟩

/-- C3 counterexample: a missing (NaN) cell is not returned unchanged; the
code converts it with float() without an exception, NaN propagates through
the multiplication, Python max(floor, nan) yields the floor, and the cell
becomes the floor value 50. -/
theorem C3_perturb_counterexample :
    perturb Cell.nan "s1" "k" (6/10) (17/10) 50 = Cell.num 50
    ∧ Cell.num 50 ≠ Cell.nan :=
  ⟨by with_unfolding_all decide, by decide⟩

/-! ## Claim C6: resolved salt and its reporting -/

/-- C6 (amended): generate_synthetic_data and tokenize_dataset return only
the output table; an absent (or empty) salt is resolved to
hex(getrandbits(128)) — the rnd argument of the embedding — and running
with that resolved salt passed explicitly reproduces the run exactly, but
the resolved salt itself is not part of the return value. -/
theorem C6_salt_resolution (cfg : GenConfig) (tcfg : TokConfig) (df dft : Table) (rnd y : Nat) :
    generate_synthetic_data cfg df Option.none rnd y
      = generate_synthetic_data cfg df (some (pyHex rnd)) rnd y
    ∧ tokenize_dataset tcfg dft Option.none rnd
      = tokenize_dataset tcfg dft (some (pyHex rnd)) rnd := by
  constructor
  · simp only [generate_synthetic_data, resolveSalt]
    rw [ite_self]
  · simp only [tokenize_dataset, resolveSalt]
    rw [ite_self]

def c6Table : Table := ⟨["Foo"], [(0, [("Foo", Cell.str "x")])]⟩

/-- C6 counterexample: the resolved salt is not reported back. Two runs
with absent salt and different fresh randomness resolve different salts,
yet the entire return value is identical (a table without sensitive
columns passes through unchanged), so no caller can recover the resolved
salt from what the functions return. -/
theorem C6_counterexample :
    generate_synthetic_data defaultGenConfig c6Table Option.none 1 2026 = .ok c6Table
    ∧ generate_synthetic_data defaultGenConfig c6Table Option.none 2 2026 = .ok c6Table
    ∧ tokenize_dataset defaultTokConfig c6Table Option.none 1 = c6Table
    ∧ tokenize_dataset defaultTokConfig c6Table Option.none 2 = c6Table
    ∧ resolveSalt Option.none 1 ≠ resolveSalt Option.none 2 :=
  ⟨by with_unfolding_all decide, by with_unfolding_all decide,
   by with_unfolding_all decide, by with_unfolding_all decide, by decide⟩

/-! ## Claim C1: determinism -/

def c1Table : Table := ⟨["Foo"], [(0, [("Foo", Cell.str "x")])]⟩

/-- C1: synthesis and tokenization are pure functions of (table, salt,
configuration, current year, fresh randomness): two runs with identical
arguments give identical outputs, and when a non-empty salt is supplied
the fresh randomness is never consulted, so the output is a function of
(table, salt, configuration) alone. Execution order does not exist in the
model: rows are synthesized by a pure per-row function and columns
tokenized by a pure per-column function (claim C9 covers permutations). -/
theorem C1_determinism (cfg : GenConfig) (tcfg : TokConfig) (df dft : Table)
    (salt : Option String) (s : String) (rnd rnd2 y : Nat) (hs : s ≠ "") :
    (generate_synthetic_data cfg df salt rnd y = generate_synthetic_data cfg df salt rnd y
      ∧ tokenize_dataset tcfg dft salt rnd = tokenize_dataset tcfg dft salt rnd)
    ∧ (generate_synthetic_data cfg df (some s) rnd y = generate_synthetic_data cfg df (some s) rnd2 y
      ∧ tokenize_dataset tcfg dft (some s) rnd = tokenize_dataset tcfg dft (some s) rnd2) := by
  refine ⟨⟨rfl, rfl⟩, ?_, ?_⟩
  · simp only [generate_synthetic_data, resolveSalt]
    rw [if_pos hs, if_pos hs]
  · simp only [tokenize_dataset, resolveSalt]
    rw [if_pos hs, if_pos hs]

/-- C1 witness: both runs on a concrete table with salt "s" and different
fresh randomness. -/
theorem C1_determinism_witness :
    (generate_synthetic_data defaultGenConfig c1Table (some "s") 1 2026
        = generate_synthetic_data defaultGenConfig c1Table (some "s") 1 2026
      ∧ tokenize_dataset defaultTokConfig c1Table (some "s") 1
        = tokenize_dataset defaultTokConfig c1Table (some "s") 1)
    ∧ (generate_synthetic_data defaultGenConfig c1Table (some "s") 1 2026
        = generate_synthetic_data defaultGenConfig c1Table (some "s") 2 2026
      ∧ tokenize_dataset defaultTokConfig c1Table (some "s") 1
        = tokenize_dataset defaultTokConfig c1Table (some "s") 2) :=
  C1_determinism defaultGenConfig defaultTokConfig c1Table c1Table (some "s") "s" 1 2 2026
    (by decide)

/-! ## Claim C2: card synthesis -/

theorem luhnTransformed_cons (d : Nat) (t : List Nat) :
    luhnTransformed (d :: t)
      = (if t.length % 2 = 0 then luhnDouble d else d) :: luhnTransformed t := by
  apply List.ext_getElem
  · simp [luhnTransformed]
  · intro i h1 h2
    rcases i with _ | i
    · simp [luhnTransformed, List.getElem_mapIdx]
    · simp only [luhnTransformed, List.getElem_mapIdx, List.getElem_cons_succ, List.length_cons]
      have he : t.length + 1 - 1 - (i + 1) = t.length - 1 - i := by omega
      rw [he]

theorem luhnSumRev_append_one (l : List Nat) (b : Bool) (a : Nat) :
    luhnSumRev b (l ++ [a])
      = luhnSumRev b l + (if (if l.length % 2 = 0 then b else !b) then luhnDouble a else a) := by
  induction l generalizing b with
  | nil => simp [luhnSumRev]
  | cons x l ih =>
    have hc : (x :: l) ++ [a] = x :: (l ++ [a]) := rfl
    rw [hc]
    simp only [luhnSumRev, List.length_cons]
    rw [ih (!b)]
    have hpar : (if l.length % 2 = 0 then !b else !(!b))
        = (if (l.length + 1) % 2 = 0 then b else !b) := by
      by_cases hp : l.length % 2 = 0
      · have h1 : (l.length + 1) % 2 = 1 := by omega
        simp [hp, h1]
      · have h0 : (l.length + 1) % 2 = 0 := by omega
        simp [hp, h0]
    rw [hpar]
    omega

theorem luhnTransformed_sum (l : List Nat) :
    (luhnTransformed l).sum = luhnSumRev true l.reverse := by
  induction l with
  | nil => rfl
  | cons d t ih =>
    rw [luhnTransformed_cons, List.sum_cons, List.reverse_cons, luhnSumRev_append_one, ih,
      List.length_reverse]
    by_cases hp : t.length % 2 = 0
    · simp [hp, Nat.add_comm]
    · simp [hp, Nat.add_comm]

theorem pyIntStr_single (v : Nat) (h : v < 10) : (pyIntStr v).data = [digitChar v] := by
  interval_cases v <;> decide

theorem charDigit_digitChar (v : Nat) (h : v < 10) : charDigit (digitChar v) = v := by
  interval_cases v <;> decide

theorem digitChar_isDigit (v : Nat) (h : v < 10) : (digitChar v).isDigit = true := by
  interval_cases v <;> decide

theorem decDigitsAux_lt10 (fuel : Nat) : ∀ n d, d ∈ decDigitsAux fuel n → d < 10 := by
  induction fuel with
  | zero => intro n d hd; simp [decDigitsAux] at hd
  | succ f ih =>
    intro n d hd
    unfold decDigitsAux at hd
    by_cases hn : n = 0
    · simp [hn] at hd
    · rw [if_neg hn] at hd
      rcases List.mem_cons.mp hd with h | h
      · subst h
        exact Nat.mod_lt _ (by norm_num)
      · exact ih _ _ h

theorem decDigitsAux_len_gt (fuel : Nat) : ∀ k n, 10 ^ k ≤ n → n ≤ fuel →
    k < (decDigitsAux fuel n).length := by
  induction fuel with
  | zero =>
    intro k n hk hn
    have hp : (10:Nat) ^ k > 0 := Nat.pos_pow_of_pos k (by norm_num)
    omega
  | succ f ih =>
    intro k n hk hn
    have hpos : 0 < n := lt_of_lt_of_le (Nat.pos_pow_of_pos k (by norm_num)) hk
    unfold decDigitsAux
    rw [if_neg (by omega)]
    cases k with
    | zero => simp
    | succ k =>
      have h10 : 10 ≤ n := le_trans (by
        calc (10:Nat) = 10 ^ 1 := by norm_num
          _ ≤ 10 ^ (k+1) := Nat.pow_le_pow_right (by norm_num) (by omega)) hk
      have hdiv : 10 ^ k ≤ n / 10 := by
        rw [Nat.le_div_iff_mul_le (by norm_num)]
        calc 10 ^ k * 10 = 10 ^ (k + 1) := by ring
          _ ≤ n := hk
      have hfuel : n / 10 ≤ f := by
        have := Nat.div_lt_self hpos (show 1 < 10 by norm_num)
        omega
      have := ih k (n / 10) hdiv hfuel
      simp only [List.length_cons]
      omega

theorem pyIntStr_all_digits (n : Nat) : ∀ c ∈ (pyIntStr n).data, c.isDigit = true := by
  unfold pyIntStr
  by_cases hn : n = 0
  · rw [if_pos hn]
    decide
  · rw [if_neg hn]
    intro c hc
    simp only [List.mem_map, List.mem_reverse] at hc
    obtain ⟨d, hd, rfl⟩ := hc
    exact digitChar_isDigit d (decDigitsAux_lt10 n n d hd)

theorem pyIntStr_len_gt (k n : Nat) (h : 10 ^ k ≤ n) : k < (pyIntStr n).data.length := by
  have hpos : 0 < n := lt_of_lt_of_le (Nat.pos_pow_of_pos k (by norm_num)) h
  unfold pyIntStr
  rw [if_neg (by omega)]
  show k < ((decDigitsAux n n).reverse.map digitChar).length
  rw [List.length_map, List.length_reverse]
  exact decDigitsAux_len_gt n k n h le_rfl

theorem luhn_checkdigit_eq (base : String) :
    luhn_checkdigit base
      = pyIntStr ((10 - (luhnTransformed (base.data.map charDigit)).sum % 10) % 10) := rfl

/-- Appending the computed check digit always passes standard Luhn
validation: the check digit construction doubles exactly the digits the
validation of the appended string doubles. -/
theorem luhn_checkdigit_valid (base : String) : luhnValid (base ++ luhn_checkdigit base) := by
  have hv : (10 - (luhnTransformed (base.data.map charDigit)).sum % 10) % 10 < 10 :=
    Nat.mod_lt _ (by norm_num)
  unfold luhnValid
  rw [string_data_append, luhn_checkdigit_eq, pyIntStr_single _ hv, List.map_append]
  simp only [List.map_cons, List.map_nil]
  rw [List.reverse_append]
  simp only [List.reverse_cons, List.reverse_nil, List.nil_append, List.singleton_append]
  simp only [luhnSumRev, Bool.false_eq_true, if_false, Bool.not_false]
  rw [charDigit_digitChar _ hv, ← luhnTransformed_sum]
  have hm : (luhnTransformed (base.data.map charDigit)).sum % 10 < 10 := Nat.mod_lt _ (by norm_num)
  omega

/-- The 15-digit card body built by _det_card for a resolved one-character
brand digit and hash value. -/
def cardBody (pfx : String) (h : Nat) : String :=
  pyZfill (pfx ++ pySliceTo (pyIntStr h) (15 - (pfx.length : Int))) 15

/-- The brand digit _det_card resolves under the default configuration,
with the "visa" fallback for unknown brands. -/
def defaultPfxOf (brand : String) : String :=
  if brand = "visa" then "4" else if brand = "mastercard" then "5"
  else if brand = "amex" then "3" else "4"

/-- The card string _det_card returns under the default configuration. -/
def cardOf (salt key brand : String) : String :=
  (det_card defaultGenConfig salt key brand).toOption.getD ""

theorem det_card_default_eq (salt key brand : String) :
    det_card defaultGenConfig salt key brand
      = .ok (cardBody (defaultPfxOf brand) (hashint salt ("card|" ++ key))
          ++ luhn_checkdigit (cardBody (defaultPfxOf brand) (hashint salt ("card|" ++ key)))) := by
  by_cases h1 : brand = "visa"
  · subst h1; rfl
  · by_cases h2 : brand = "mastercard"
    · subst h2; rfl
    · by_cases h3 : brand = "amex"
      · subst h3; rfl
      · have hnone : defaultGenConfig.card_brands.find? (fun p => p.1 = brand) = Option.none := by
          rw [List.find?_eq_none]
          intro x hx
          fin_cases hx <;> simp [eq_comm, h1, h2, h3]
        have hpfx : defaultPfxOf brand = "4" := by
          unfold defaultPfxOf
          rw [if_neg h1, if_neg h2, if_neg h3]
        unfold det_card
        rw [hnone, hpfx]
        rfl

theorem cardBody_data (pfx : String) (c : Char) (hpd : pfx.data = [c]) (h : Nat)
    (hh : 10 ^ 13 ≤ h) :
    (cardBody pfx h).data = c :: (pyIntStr h).data.take 14 := by
  have hlen1 : pfx.length = 1 := by
    show pfx.data.length = 1
    rw [hpd]
    rfl
  have htakelen : ((pyIntStr h).data.take 14).length = 14 := by
    rw [List.length_take]
    have := pyIntStr_len_gt 13 h hh
    omega
  unfold cardBody
  have hslice : pySliceTo (pyIntStr h) (15 - (pfx.length : Int))
      = ⟨(pyIntStr h).data.take 14⟩ := by
    rw [hlen1]
    unfold pySliceTo
    rw [if_pos (by norm_num)]
    rfl
  rw [hslice]
  have hsdata : (pfx ++ (⟨(pyIntStr h).data.take 14⟩ : String)).data
      = c :: (pyIntStr h).data.take 14 := by
    rw [string_data_append, hpd]
    rfl
  have hslen : (pfx ++ (⟨(pyIntStr h).data.take 14⟩ : String)).length = 15 := by
    show (pfx ++ (⟨(pyIntStr h).data.take 14⟩ : String)).data.length = 15
    rw [hsdata]
    simp [htakelen]
  unfold pyZfill
  rw [hslen]
  norm_num
  exact hsdata

theorem cardBody_chk_data (pfx : String) (h : Nat) :
    ∃ v, v < 10 ∧ (luhn_checkdigit (cardBody pfx h)).data = [digitChar v] := by
  refine ⟨(10 - (luhnTransformed ((cardBody pfx h).data.map charDigit)).sum % 10) % 10,
    Nat.mod_lt _ (by norm_num), ?_⟩
  rw [luhn_checkdigit_eq]
  exact pyIntStr_single _ (Nat.mod_lt _ (by norm_num))

/-- C2: under the default configuration _det_card always succeeds; the
result has 16 characters, all decimal digits, passes standard Luhn
validation, starts with the configured prefix of the brand (falling back
to the visa prefix "4" for unknown brands), and is a function of
(salt, key, brand) alone, hence identical on every call. The hypothesis
asks the keyed hash to have at least 14 decimal digits, which a 256-bit
SHA-256 value fails only with probability below 10^-63. -/
theorem C2_det_card (salt key brand : String)
    (hh : 10 ^ 13 ≤ hashint salt ("card|" ++ key)) :
    det_card defaultGenConfig salt key brand = .ok (cardOf salt key brand)
    ∧ (cardOf salt key brand).length = 16
    ∧ (cardOf salt key brand).data.all Char.isDigit = true
    ∧ luhnValid (cardOf salt key brand)
    ∧ (cardOf salt key brand).data.take 1 = (defaultPfxOf brand).data := by
  have heq := det_card_default_eq salt key brand
  have hcard : cardOf salt key brand
      = cardBody (defaultPfxOf brand) (hashint salt ("card|" ++ key))
        ++ luhn_checkdigit (cardBody (defaultPfxOf brand) (hashint salt ("card|" ++ key))) := by
    unfold cardOf
    rw [heq]
    rfl
  have hex : ∃ c, (defaultPfxOf brand).data = [c] ∧ c.isDigit = true := by
    unfold defaultPfxOf
    split_ifs
    · exact ⟨'4', rfl, by decide⟩
    · exact ⟨'5', rfl, by decide⟩
    · exact ⟨'3', rfl, by decide⟩
    · exact ⟨'4', rfl, by decide⟩
  obtain ⟨c, hpd, hc⟩ := hex
  have hbody := cardBody_data (defaultPfxOf brand) c hpd _ hh
  obtain ⟨v, hv, hchk⟩ := cardBody_chk_data (defaultPfxOf brand) (hashint salt ("card|" ++ key))
  have hdata : (cardOf salt key brand).data
      = (c :: (pyIntStr (hashint salt ("card|" ++ key))).data.take 14) ++ [digitChar v] := by
    rw [hcard, string_data_append, hbody, hchk]
  have htakelen : ((pyIntStr (hashint salt ("card|" ++ key))).data.take 14).length = 14 := by
    rw [List.length_take]
    have := pyIntStr_len_gt 13 _ hh
    omega
  refine ⟨by rw [hcard]; exact heq, ?_, ?_, ?_, ?_⟩
  · show (cardOf salt key brand).data.length = 16
    rw [hdata]
    simp [htakelen]
  · rw [hdata]
    simp only [List.all_eq_true]
    intro x hx

    simp only [List.mem_append, List.mem_cons] at hx
    rcases hx with (hx | hx) | hx
    · rw [hx]; exact hc
    · exact pyIntStr_all_digits _ x (List.take_subset _ _ hx)
    · have hx2 : x = digitChar v := by simpa using hx
      rw [hx2]
      exact digitChar_isDigit v hv
  · rw [hcard]
    exact luhn_checkdigit_valid _
  · rw [hdata, hpd]
    rfl

/-- C2 witness: the section 8 scenario, brand "amex", key "k1", salt "s1";
the hash has more than 14 decimal digits and the resulting card is the
16-digit Luhn-valid string starting with the amex prefix "3". -/
theorem C2_det_card_witness :
    det_card defaultGenConfig "s1" "k1" "amex" = .ok (cardOf "s1" "k1" "amex")
    ∧ (cardOf "s1" "k1" "amex").length = 16
    ∧ (cardOf "s1" "k1" "amex").data.all Char.isDigit = true
    ∧ luhnValid (cardOf "s1" "k1" "amex")
    ∧ (cardOf "s1" "k1" "amex").data.take 1 = (defaultPfxOf "amex").data :=
  C2_det_card "s1" "k1" "amex" (by decide)

/-! ## Claim C9: row independence and permutation equivariance -/

theorem synthRows_cons_ok (cfg : GenConfig) (cols : List String) (ct : ColumnTypes)
    (salt : String) (y : Nat) (ir : Nat × Row) (rest out : List (Nat × Row))
    (h : synthRows cfg cols ct salt y (ir :: rest) = .ok out) :
    ∃ nr tl, synthRow cfg cols ct salt y ir = .ok nr
      ∧ synthRows cfg cols ct salt y rest = .ok tl ∧ out = (ir.1, nr) :: tl := by
  unfold synthRows at h
  cases hr : synthRow cfg cols ct salt y ir with
  | error e => rw [hr] at h; simp at h
  | ok nr =>
    rw [hr] at h
    cases ht : synthRows cfg cols ct salt y rest with
    | error e => rw [ht] at h; simp at h
    | ok tl =>
      rw [ht] at h
      simp only [Except.ok.injEq] at h
      exact ⟨nr, tl, rfl, rfl, h.symm⟩

theorem synthRows_nth (cfg : GenConfig) (cols : List String) (ct : ColumnTypes)
    (salt : String) (y : Nat) :
    ∀ (rows out : List (Nat × Row)), synthRows cfg cols ct salt y rows = .ok out →
    ∀ i, out.get? i = (rows.get? i).bind
        (fun ir => (synthRow cfg cols ct salt y ir).toOption.map (fun nr => (ir.1, nr))) := by
  intro rows
  induction rows with
  | nil =>
    intro out h i
    unfold synthRows at h
    simp only [Except.ok.injEq] at h
    subst h
    rfl
  | cons ir rest ih =>
    intro out h i
    obtain ⟨nr, tl, hr, ht, rfl⟩ := synthRows_cons_ok cfg cols ct salt y ir rest out h
    cases i with
    | zero => simp [hr, Except.toOption]
    | succ i => simpa using ih tl ht i

theorem synthRows_mem_ok (cfg : GenConfig) (cols : List String) (ct : ColumnTypes)
    (salt : String) (y : Nat) :
    ∀ (rows out : List (Nat × Row)), synthRows cfg cols ct salt y rows = .ok out →
    ∀ ir ∈ rows, ∃ nr, synthRow cfg cols ct salt y ir = .ok nr := by
  intro rows
  induction rows with
  | nil => intro out h ir hm; simp at hm
  | cons a rest ih =>
    intro out h ir hm
    obtain ⟨nr, tl, hra, hta, rfl⟩ := synthRows_cons_ok cfg cols ct salt y a rest out h
    rcases List.mem_cons.mp hm with rfl | hm
    · exact ⟨nr, hra⟩
    · exact ih tl hta ir hm

theorem synthRows_select (cfg : GenConfig) (cols : List String) (ct : ColumnTypes)
    (salt : String) (y : Nat) (rows out : List (Nat × Row))
    (h : synthRows cfg cols ct salt y rows = .ok out) :
    ∀ σ : List Nat,
      synthRows cfg cols ct salt y (σ.filterMap (fun j => rows.get? j))
        = .ok (σ.filterMap (fun j => out.get? j)) := by
  intro σ
  induction σ with
  | nil => rfl
  | cons j σ ih =>
    simp only [List.filterMap_cons]
    cases hj : rows.get? j with
    | none =>
      have hnth := synthRows_nth cfg cols ct salt y rows out h j
      rw [hj] at hnth
      simp only [Option.none_bind] at hnth
      rw [hnth]
      exact ih
    | some ir =>
      obtain ⟨nr, hr⟩ := synthRows_mem_ok cfg cols ct salt y rows out h ir (List.get?_mem hj)
      have hnth := synthRows_nth cfg cols ct salt y rows out h j
      have hnth2 : out.get? j = some (ir.1, nr) := by
        rw [hnth, hj]
        simp [hr, Except.toOption]
      rw [hnth2]
      show synthRows cfg cols ct salt y (ir :: σ.filterMap (fun j => rows.get? j))
          = .ok ((ir.1, nr) :: σ.filterMap (fun j => out.get? j))
      unfold synthRows
      rw [hr, ih]

/-- C1/C9 note: each output row of generate_synthetic_data is produced by
synthRow from its own labelled input row alone. C9: selecting or permuting
the labelled input rows (pandas index labels travel with their rows)
selects or permutes the output rows identically, and each output row is a
function only of its own input row, its index label, the salt, the
configuration and the current year — never of any other row. -/
theorem C9_row_independence (cfg : GenConfig) (df : Table) (salt : Option String) (rnd y : Nat)
    (out : List (Nat × Row))
    (h : generate_synthetic_data cfg df salt rnd y = .ok ⟨df.cols, out⟩) :
    (∀ i, out.get? i = (df.rows.get? i).bind (fun ir =>
        (synthRow cfg df.cols (detect_column_types df.cols) (resolveSalt salt rnd) y ir).toOption.map
          (fun nr => (ir.1, nr))))
    ∧ ∀ σ : List Nat,
        generate_synthetic_data cfg ⟨df.cols, σ.filterMap (fun j => df.rows.get? j)⟩ salt rnd y
          = .ok ⟨df.cols, σ.filterMap (fun j => out.get? j)⟩ := by
  have hrows : synthRows cfg df.cols (detect_column_types df.cols) (resolveSalt salt rnd) y df.rows
      = .ok out := by
    simp only [generate_synthetic_data] at h
    cases hs : synthRows cfg df.cols (detect_column_types df.cols) (resolveSalt salt rnd) y df.rows with
    | error e => rw [hs] at h; simp at h
    | ok rs =>
      rw [hs] at h
      simp only [Except.ok.injEq, Table.mk.injEq] at h
      rw [h.2]
  constructor
  · exact synthRows_nth cfg df.cols (detect_column_types df.cols) (resolveSalt salt rnd) y
      df.rows out hrows
  · intro σ
    simp only [generate_synthetic_data]
    rw [synthRows_select cfg df.cols (detect_column_types df.cols) (resolveSalt salt rnd) y
      df.rows out hrows σ]

def c9Table : Table := ⟨["Foo"], [(0, [("Foo", Cell.str "x")])]⟩

/-- C9 witness: duplicating the single row of a concrete table through the
selection [0, 0] duplicates the output row identically. -/
theorem C9_row_independence_witness :
    generate_synthetic_data defaultGenConfig
        ⟨c9Table.cols, [0, 0].filterMap (fun j => c9Table.rows.get? j)⟩ (some "s") 0 2026
      = .ok ⟨c9Table.cols, [0, 0].filterMap (fun j => c9Table.rows.get? j)⟩ :=
  (C9_row_independence defaultGenConfig c9Table (some "s") 0 2026 c9Table.rows
    (by with_unfolding_all decide)).2 [0, 0]

/-! ## Claim C8: caller-visible failures -/

/-- C8 (amended): there is no validation before the row loop at all; on a
table with no rows both pipelines always succeed (tokenize_dataset never
raises by construction), and every generate failure arises inside the
processing of some row. -/
theorem C8_no_prevalidation (cfg : GenConfig) (salt : Option String) (rnd y : Nat)
    (cols : List String) :
    generate_synthetic_data cfg ⟨cols, []⟩ salt rnd y = .ok ⟨cols, []⟩ := by
  simp only [generate_synthetic_data]
  rfl

def c8Table : Table :=
  ⟨["TransactionAmount", "Fraud"],
   [(0, [("TransactionAmount", Cell.num 100), ("Fraud", Cell.num 0)]),
    (1, [("TransactionAmount", Cell.str "abc"), ("Fraud", Cell.num 0)])]⟩

def c8TableRow0 : Table :=
  ⟨["TransactionAmount", "Fraud"],
   [(0, [("TransactionAmount", Cell.num 100), ("Fraud", Cell.num 0)])]⟩

def c8EmptyBrandConfig : GenConfig := { defaultGenConfig with card_brands := [] }

def c8CardTable : Table := ⟨["SenderCard"], [(0, [("SenderCard", Cell.str "4111111111111111")])]⟩

/-- C8 counterexample: a structurally valid table with valid default
configuration raises mid-table: row 0 alone synthesizes fine, but row 1
holds the non-numeric TransactionAmount "abc", which _perturb passes
through unchanged and the fraud step then feeds to float(), raising
ValueError after a row has already been produced. Moreover an invalid
configuration (empty card-brand map) is not detected before rows are
processed: on a zero-row table it raises nothing, and on a one-row table
with a SenderCard column it raises KeyError from inside row processing. -/
theorem C8_counterexample :
    (generate_synthetic_data defaultGenConfig c8TableRow0 (some "s1") 0 2026).isOk = true
    ∧ generate_synthetic_data defaultGenConfig c8Table (some "s1") 0 2026 = .error "ValueError"
    ∧ generate_synthetic_data c8EmptyBrandConfig ⟨["SenderCard"], []⟩ (some "s1") 0 2026
        = .ok ⟨["SenderCard"], []⟩
    ∧ generate_synthetic_data c8EmptyBrandConfig c8CardTable (some "s1") 0 2026
        = .error "KeyError" :=
  ⟨by with_unfolding_all decide, by with_unfolding_all decide,
   by with_unfolding_all decide, by with_unfolding_all decide⟩

/-! ## Claim C7: failure containment in tokenization -/

theorem tokMapCells_ok_length (tf : String → String → Except String String) (col : String) :
    ∀ (cells : List Cell) (vs : List String), tokMapCells tf col cells = .ok vs →
      vs.length = cells.length := by
  intro cells
  induction cells with
  | nil =>
    intro vs h
    unfold tokMapCells at h
    simp only [Except.ok.injEq] at h
    rw [← h]
    rfl
  | cons c cs ih =>
    intro vs h
    unfold tokMapCells at h
    cases h1 : tf (pyStrOfCell c) col with
    | error e => rw [h1] at h; simp at h
    | ok v =>
      rw [h1] at h
      cases h2 : tokMapCells tf col cs with
      | error e => rw [h2] at h; simp at h
      | ok vs2 =>
        rw [h2] at h
        simp only [Except.ok.injEq] at h
        rw [← h]
        simp [ih vs2 h2]

theorem applyRules_ok_length (rules : List ((String → Bool) × (String → String → Except String String)))
    (col : String) (cells : List Cell) (vs : List String)
    (h : applyRulesToColumn rules col cells = some vs) : vs.length = cells.length := by
  induction rules with
  | nil => simp [applyRulesToColumn] at h
  | cons r rest ih =>
    unfold applyRulesToColumn at h
    by_cases hc : r.1 col
    · rw [if_pos hc] at h
      cases hm : tokMapCells r.2 col cells with
      | error e => rw [hm] at h; exact ih h
      | ok vs2 =>
        rw [hm] at h
        simp only [Option.some.injEq] at h
        rw [← h]
        exact tokMapCells_ok_length r.2 col cells vs2 hm
    · rw [if_neg hc] at h
      exact ih h

theorem getColumn_length (t : Table) (c : String) : (getColumn t c).length = t.rows.length := by
  unfold getColumn
  rw [List.length_map]

theorem setColumn_cols (t : Table) (c : String) (vs : List Cell) :
    (setColumn t c vs).cols = t.cols := rfl

theorem rowGetD_rowSet_ne (r : Row) (c c' : String) (v d : Cell) (hne : c ≠ c') :
    rowGetD (rowSet r c v) c' d = rowGetD r c' d := by
  unfold rowGetD
  rw [rowGet_rowSet_ne r c c' v hne]

theorem rowGetD_rowSet_self (r : Row) (c : String) (v d : Cell)
    (h : c ∈ r.map Prod.fst) : rowGetD (rowSet r c v) c d = v := by
  unfold rowGetD
  rw [rowGet_rowSet_self r c v h]
  rfl

theorem zip_rowSet_get_ne (c c' : String) (hne : c ≠ c') :
    ∀ (rows : List (Nat × Row)) (vs : List Cell), vs.length = rows.length →
    ((rows.zip vs).map (fun p => ((p.1.1 : Nat), rowSet p.1.2 c p.2))).map
        (fun ir => rowGetD ir.2 c' Cell.none)
      = rows.map (fun ir => rowGetD ir.2 c' Cell.none) := by
  intro rows
  induction rows with
  | nil => intro vs _; simp
  | cons ir rest ih =>
    intro vs hlen
    cases vs with
    | nil => simp at hlen
    | cons v vs =>
      simp only [List.zip_cons_cons, List.map_cons]
      rw [rowGetD_rowSet_ne ir.2 c c' v Cell.none hne]
      simp only [List.length_cons] at hlen
      rw [ih vs (by omega)]

theorem zip_rowSet_get_self (c : String) :
    ∀ (rows : List (Nat × Row)) (vs : List Cell), vs.length = rows.length →
    (∀ ir ∈ rows, c ∈ ir.2.map Prod.fst) →
    ((rows.zip vs).map (fun p => ((p.1.1 : Nat), rowSet p.1.2 c p.2))).map
        (fun ir => rowGetD ir.2 c Cell.none) = vs := by
  intro rows
  induction rows with
  | nil =>
    intro vs hlen _
    cases vs with
    | nil => rfl
    | cons v vs => simp at hlen
  | cons ir rest ih =>
    intro vs hlen hkeys
    cases vs with
    | nil => simp at hlen
    | cons v vs =>
      simp only [List.zip_cons_cons, List.map_cons]
      rw [rowGetD_rowSet_self ir.2 c v Cell.none (hkeys ir (List.mem_cons_self _ _))]
      simp only [List.length_cons] at hlen
      rw [ih vs (by omega) (fun x hx => hkeys x (List.mem_cons_of_mem _ hx))]

theorem getColumn_setColumn_ne (t : Table) (c c' : String) (vs : List Cell)
    (hne : c ≠ c') (hlen : vs.length = t.rows.length) :
    getColumn (setColumn t c vs) c' = getColumn t c' := by
  obtain ⟨cols, rows⟩ := t
  exact zip_rowSet_get_ne c c' hne rows vs hlen

theorem getColumn_setColumn_self (t : Table) (c : String) (vs : List Cell)
    (hlen : vs.length = t.rows.length)
    (hkeys : ∀ ir ∈ t.rows, c ∈ ir.2.map Prod.fst) :
    getColumn (setColumn t c vs) c = vs := by
  obtain ⟨cols, rows⟩ := t
  exact zip_rowSet_get_self c rows vs hlen hkeys

theorem setColumn_keys (t : Table) (c : String) (vs : List Cell) (c' : String)
    (hkeys : ∀ ir ∈ t.rows, c' ∈ ir.2.map Prod.fst) :
    ∀ ir ∈ (setColumn t c vs).rows, c' ∈ ir.2.map Prod.fst := by
  intro ir hir
  simp only [setColumn, List.mem_map] at hir
  obtain ⟨⟨p, v⟩, hmem, rfl⟩ := hir
  have hp : p ∈ t.rows := (List.of_mem_zip hmem).1
  simp only [rowSet_keys]
  exact hkeys p hp

theorem setColumn_rows_length (t : Table) (c : String) (vs : List Cell)
    (hlen : vs.length = t.rows.length) :
    (setColumn t c vs).rows.length = t.rows.length := by
  simp only [setColumn, List.length_map, List.length_zip]
  omega

theorem tokFold_not_mem (rules : List ((String → Bool) × (String → String → Except String String))) :
    ∀ (cs : List String) (t : Table) (c : String), c ∉ cs →
    getColumn (tokenizeFold rules t cs) c = getColumn t c := by
  intro cs
  induction cs with
  | nil => intro t c _; rfl
  | cons col cs ih =>
    intro t c h
    have hne : c ≠ col := fun hh => h (hh ▸ List.mem_cons_self _ _)
    have hni : c ∉ cs := fun hh => h (List.mem_cons_of_mem _ hh)
    unfold tokenizeFold
    cases hr : applyRulesToColumn rules col (getColumn t col) with
    | none => exact ih t c hni
    | some vs =>
      rw [ih _ c hni]
      apply getColumn_setColumn_ne
      · exact fun hh => hne hh.symm
      · rw [List.length_map, applyRules_ok_length rules col _ vs hr, getColumn_length]

theorem tokFold_mem (rules : List ((String → Bool) × (String → String → Except String String))) :
    ∀ (cs : List String) (t : Table) (c : String), cs.Nodup → c ∈ cs →
    (∀ ir ∈ t.rows, c ∈ ir.2.map Prod.fst) →
    getColumn (tokenizeFold rules t cs) c
      = (match applyRulesToColumn rules c (getColumn t c) with
         | some vs => vs.map Cell.str
         | Option.none => getColumn t c) := by
  intro cs
  induction cs with
  | nil => intro t c _ h; simp at h
  | cons col cs ih =>
    intro t c hnd hc hkeys
    unfold tokenizeFold
    by_cases hcc : c = col
    · subst hcc
      have hnotin : c ∉ cs := (List.nodup_cons.mp hnd).1
      cases hr : applyRulesToColumn rules c (getColumn t c) with
      | none => exact tokFold_not_mem rules cs t c hnotin
      | some vs =>
        rw [tokFold_not_mem rules cs _ c hnotin]
        apply getColumn_setColumn_self
        · rw [List.length_map, applyRules_ok_length rules c _ vs hr, getColumn_length]
        · exact hkeys
    · have hcs : c ∈ cs := by
        rcases List.mem_cons.mp hc with h | h
        · exact absurd h hcc
        · exact h
      have hnd2 : cs.Nodup := (List.nodup_cons.mp hnd).2
      cases hr : applyRulesToColumn rules col (getColumn t col) with
      | none => exact ih t c hnd2 hcs hkeys
      | some vs =>
        have hlen : (vs.map Cell.str).length = t.rows.length := by
          rw [List.length_map, applyRules_ok_length rules col _ vs hr, getColumn_length]
        have hkeys2 := setColumn_keys t col (vs.map Cell.str) c hkeys
        have hrec := ih (setColumn t col (vs.map Cell.str)) c hnd2 hcs hkeys2
        have hgc : getColumn (setColumn t col (vs.map Cell.str)) c = getColumn t c :=
          getColumn_setColumn_ne t col c _ (fun hh => hcc hh.symm) hlen
        rw [hgc] at hrec
        exact hrec

/-- C7 (amended): a raised exception while transforming a column is caught
at column granularity, not cell granularity. The attempted rule leaves
every cell of the column at its previous value and the remaining columns
and rows continue (the table is never aborted), but the loop then tries
the next matching rule, which may still transform the column. Each output
column is exactly the first matching rule application on the input column
that succeeds on all its cells, or the unchanged input column when every
matching rule fails. -/
theorem C7_column_granularity (cfg : TokConfig) (df : Table) (salt : Option String) (rnd : Nat)
    (c : String) (hnd : df.cols.Nodup) (hc : c ∈ df.cols)
    (hkeys : ∀ ir ∈ df.rows, c ∈ ir.2.map Prod.fst) :
    getColumn (tokenize_dataset cfg df salt rnd) c
      = (match applyRulesToColumn (tokRules cfg (resolveSalt salt rnd)) c (getColumn df c) with
         | some vs => vs.map Cell.str
         | Option.none => getColumn df c) := by
  simp only [tokenize_dataset]
  exact tokFold_mem (tokRules cfg (resolveSalt salt rnd)) df.cols df c hnd hc hkeys

def c7wTable : Table := ⟨["Phone"], [(0, [("Phone", Cell.str "12345")])]⟩

/-- C7 witness: the phone column of a concrete table is governed exactly
by its first successful matching rule. -/
theorem C7_column_granularity_witness :
    getColumn (tokenize_dataset defaultTokConfig c7wTable (some "s") 0) "Phone"
      = (match applyRulesToColumn (tokRules defaultTokConfig (resolveSalt (some "s") 0)) "Phone"
            (getColumn c7wTable "Phone") with
         | some vs => vs.map Cell.str
         | Option.none => getColumn c7wTable "Phone") :=
  C7_column_granularity defaultTokConfig c7wTable (some "s") 0 "Phone"
    (by decide) (by decide) (by decide)

def c7Config : TokConfig := { defaultTokConfig with name_list := [] }

def c7Table : Table := ⟨["CardName"], [(0, [("CardName", Cell.str "bob")])]⟩

/-- C7 counterexample: with an empty configured name list, the name rule
matches column "CardName" and raises ZeroDivisionError on its cell "bob".
The cell does not retain its original value as the claim states: the loop
falls through to the card rule, which replaces the cell with a CARD token. -/
theorem C7_counterexample :
    name_from_hash c7Config "bob" ("s0" ++ "|" ++ "CardName") = .error "ZeroDivisionError"
    ∧ tokenize_dataset c7Config c7Table (some "s0") 0
        = ⟨["CardName"], [(0, [("CardName", Cell.str "CARD-e9f67f3622b6")])]⟩
    ∧ ("CARD-e9f67f3622b6" : String) ≠ "bob" :=
  ⟨by with_unfolding_all decide, by with_unfolding_all decide, by decide⟩

/-! ## Claim C4: fraud label synthesis -/

theorem fraudAmountOf_rowSet_fraud (new : Row) (v : Cell) :
    fraudAmountOf (rowSet new "Fraud" v) = fraudAmountOf new := by
  unfold fraudAmountOf
  rw [rowGetD_rowSet_ne new "Fraud" "TransactionAmount" v (Cell.num 0) (by decide)]

theorem creationYearOf_rowSet_fraud (cols : List String) (new : Row) (v : Cell) :
    creationYearOf cols (rowSet new "Fraud" v) = creationYearOf cols new := by
  unfold creationYearOf
  rw [rowGetD_rowSet_ne new "Fraud" "ReceiverAccountCreationDate" v Cell.none (by decide)]

theorem codeFraudProb_eq_spec (cfg : GenConfig) (y : Nat) (amtF : PyFloat) (cyOpt : Option Nat) :
    codeFraudProb cfg y amtF cyOpt
      = cfg.base_fraud_probability
        + (if pyGtQ amtF cfg.high_amount_threshold then cfg.high_amount_risk_increase else 0)
        + (if (match cyOpt with
               | some cy => decide (y - 1 ≤ cy)
               | Option.none => false) then cfg.new_account_risk_increase else 0) := by
  unfold codeFraudProb
  rcases cyOpt with _ | cy
  · by_cases hgt : pyGtQ amtF cfg.high_amount_threshold = true
    · simp [hgt]
    · simp [hgt]
  · by_cases hle : y - 1 ≤ cy
    · by_cases hgt : pyGtQ amtF cfg.high_amount_threshold = true
      · simp [hle, hgt, add_assoc]
      · simp [hle, hgt]
    · by_cases hgt : pyGtQ amtF cfg.high_amount_threshold = true
      · simp [hle, hgt]
      · simp [hle, hgt]

/-- C4 (amended): for a table with a Fraud column, the synthesized label is
in {0,1} and equals 1 exactly when the uniform [0,1) draw from the
generator seeded by (salt, "fraud|" + txnKey) is below
min(base + highAmountRiskIncrease·[amount > threshold]
 + newAccountRiskIncrease·[creation year ≥ currentYear−1],
 maxFraudProbability), where both indicators are read from the OUTPUT row
(specFraudProb): the code evaluates them on the perturbed
TransactionAmount and the resynthesized ReceiverAccountCreationDate, not
on the input values, so the section 8 scenario row does not pin the
probability to 0.50. -/
theorem C4_fraud_label (cfg : GenConfig) (cols : List String) (salt : String) (y : Nat)
    (tkey : String) (new out : Row)
    (hf : cols.contains "Fraud" = true)
    (hkey : "Fraud" ∈ new.map Prod.fst)
    (hok : fraudStep cfg cols salt y tkey new = .ok out) :
    rowGetD out "Fraud" Cell.none
      = .num (if pyRandom53 (rngSeed salt ("fraud|" ++ tkey))
          < min (specFraudProb cfg y cols out) cfg.max_fraud_probability then 1 else 0)
    ∧ (rowGetD out "Fraud" Cell.none = .num 0 ∨ rowGetD out "Fraud" Cell.none = .num 1) := by
  unfold fraudStep at hok
  rw [if_pos hf] at hok
  cases hA : fraudAmountOf new with
  | error e => rw [hA] at hok; simp at hok
  | ok amtF =>
    rw [hA] at hok
    cases hY : creationYearOf cols new with
    | error e => rw [hY] at hok; simp at hok
    | ok cyOpt =>
      rw [hY] at hok
      simp only [Except.ok.injEq] at hok
      subst hok
      rw [rowGetD_rowSet_self new "Fraud" _ Cell.none hkey]
      have hspec : specFraudProb cfg y cols
          (rowSet new "Fraud" (.num (fraudLabel cfg salt y tkey amtF cyOpt)))
          = codeFraudProb cfg y amtF cyOpt := by
        unfold specFraudProb
        rw [fraudAmountOf_rowSet_fraud, creationYearOf_rowSet_fraud, hA, hY,
          codeFraudProb_eq_spec]
        rcases cyOpt with _ | cy <;> simp [Except.toOption]
      rw [hspec]
      constructor
      · rfl
      · unfold fraudLabel
        by_cases hd : pyRandom53 (rngSeed salt ("fraud|" ++ tkey))
            < min (codeFraudProb cfg y amtF cyOpt) cfg.max_fraud_probability
        · right; rw [if_pos hd]
        · left; rw [if_neg hd]

/-- The section 8 scenario columns. -/
def scnCols : List String :=
  ["SenderName", "SenderAadhar", "TransactionAmount", "ReceiverAccountCreationDate", "Fraud"]

/-- The section 8 scenario row (TransactionAmount 9000, creation date
2024-01-01), extended with a Fraud column so the fraud step runs. -/
def scnRow : Row :=
  [("SenderName", .str "Ravi"), ("SenderAadhar", .str "123456789012"),
   ("TransactionAmount", .num 9000), ("ReceiverAccountCreationDate", .str "2024-01-01"),
   ("Fraud", .num 0)]

def scnTable : Table := ⟨scnCols, [(0, scnRow)]⟩

/-- The synthesized output row for the scenario with salt "s1", current
year 2026 (perturbed amount 7169.87, resynthesized date 2023-02-16). -/
def scnOutRow : Row :=
  [("SenderName", .str "Leo"), ("SenderAadhar", .str "839212142341"),
   ("TransactionAmount", .num (716987/100)), ("ReceiverAccountCreationDate", .str "2023-02-16"),
   ("Fraud", .num 0)]

/-- C4 counterexample: on the section 8 scenario row the code synthesizes
fraud label 0 even though the seeded draw 4222663893647155/2^53 = 0.4688…
is below the 0.50 the claim computes. The claim evaluates the indicators
on the INPUT row (amount 9000 > 8000, creation year 2024 ≥ currentYear−1
for currentYear 2025); the code evaluates them on the values it has
already synthesized into the row — the perturbed amount 7169.87 < 8000
and the resynthesized date 2023-02-16 with 2023 < 2025 — so the clamped
probability is the base 0.10, not 0.50, and the label is 0. -/
theorem C4_counterexample :
    generate_synthetic_data defaultGenConfig scnTable (some "s1") 0 2026
      = .ok ⟨scnCols, [(0, scnOutRow)]⟩
    ∧ rowGetD scnOutRow "Fraud" Cell.none = Cell.num 0
    ∧ pyRandom53 (rngSeed "s1" ("fraud|" ++ "0")) < 1/2
    ∧ min (specFraudProb defaultGenConfig 2026 scnCols scnOutRow)
        defaultGenConfig.max_fraud_probability = 1/10 :=
  ⟨by with_unfolding_all rfl, by with_unfolding_all rfl,
   by with_unfolding_all decide, by with_unfolding_all rfl⟩

/-- C4 witness: the amended theorem applied to a concrete one-column row;
the draw 5223708468119529/2^53 = 0.5799… is not below the base 0.10, so
the label is 0 and the characterization holds. -/
theorem C4_fraud_label_witness :
    rowGetD [("Fraud", Cell.num 0)] "Fraud" Cell.none
      = .num (if pyRandom53 (rngSeed "w" ("fraud|" ++ "0"))
          < min (specFraudProb defaultGenConfig 2026 ["Fraud"] [("Fraud", Cell.num 0)])
              defaultGenConfig.max_fraud_probability then 1 else 0)
    ∧ (rowGetD [("Fraud", Cell.num 0)] "Fraud" Cell.none = .num 0
       ∨ rowGetD [("Fraud", Cell.num 0)] "Fraud" Cell.none = .num 1) :=
  C4_fraud_label defaultGenConfig ["Fraud"] "w" 2026 "0"
    [("Fraud", Cell.num 0)] [("Fraud", Cell.num 0)]
    (by decide) (by simp) (by with_unfolding_all decide)
